import Mathlib

/-!
Shallow embedding of the RSS-bot deduplication/state engine
(`src/state_manager.py` and the pipeline part of `src/bot_controller.py`),
together with proofs settling the frozen claims about it.

Conventions of the embedding:

* A Python `dict` / `OrderedDict` that came out of `json.loads` is an
  insertion-ordered association list `Doc := List (String × JValue)`;
  JSON values are the inductive `JValue`.  JSON object keys are always
  strings, and the only operation that could create a non-string dict key
  (`_convert_legacy_state` copying a legacy `post_id`) is modelled as a
  raised error, because in Python such a document also ends in load
  recovery (a non-string hashable key makes `_validate_state` fail through
  its internal `re.match` TypeError guard, an unhashable one raises).
* Raising a Python exception is an `Except`- or flag-valued result;
  functions that Python lets mutate state before raising return the
  partially mutated document together with the error.
* External collaborators (the Telegram publisher, the YandexGPT
  `enhance` call, image download/generation) are oracle functions
  supplied as parameters, exactly at the interface boundary the code
  awaits them on.
* `hashlib.md5(...).hexdigest()` / `hashlib.sha256(...).hexdigest()` are
  modelled by `md5_hexdigest` / `sha256_hexdigest`: deterministic
  functions producing the digest as 32 (resp. 64) lowercase hex digits.
  The program depends only on determinism and the output format of the
  digests, never on their cryptographic structure, so the digest core is
  a simple deterministic mixing function of the right bit width.
-/

/-- A parsed JSON value (`json.loads` output). Numbers are rationals,
which covers every literal the state file uses (1.2, 1.0, counters). -/
inductive JValue where
  | null : JValue
  | jbool (b : Bool) : JValue
  | num (q : ℚ) : JValue
  | str (s : String) : JValue
  | arr (xs : List JValue) : JValue
  | obj (kvs : List (String × JValue)) : JValue

/-- A Python dict holding JSON data: insertion-ordered association list. -/
abbrev Doc := List (String × JValue)

/-- Is this JSON value a Python `str`? (`isinstance(v, str)`). -/
def JValue.isStr : JValue → Bool
  | .str _ => true
  | _ => false

/-- Is this JSON value a Python `dict`? (`isinstance(v, dict)`). -/
def JValue.isObj : JValue → Bool
  | .obj _ => true
  | _ => false

/-- Dict lookup `d[k]` / `d.get(k)`: first (unique) binding of `k`. -/
def dGet? : Doc → String → Option JValue
  | [], _ => none
  | (k, v) :: rest, key => if k = key then some v else dGet? rest key

/-- Dict membership `k in d`. -/
def dHas (d : Doc) (k : String) : Bool :=
  (dGet? d k).isSome

/-- Dict update `d[k] = v`: Python keeps the position of an existing key
and appends a fresh key at the end. -/
def dSet : Doc → String → JValue → Doc
  | [], key, val => [(key, val)]
  | (k, v) :: rest, key, val =>
      if k = key then (k, val) :: rest else (k, v) :: dSet rest key val

/-- Dict deletion `del d[k]`. -/
def dDel : Doc → String → Doc
  | [], _ => []
  | (k, v) :: rest, key => if k = key then rest else (k, v) :: dDel rest key

/-- The lowercase hex digit for `n % 16`. -/
def hexChar (n : Nat) : Char :=
  if n < 10 then Char.ofNat (48 + n)
  else if n < 16 then Char.ofNat (87 + n)
  else '0'

/-- Little-endian list of `width` hex digits of `n`. -/
def toHexRev : Nat → Nat → List Char
  | 0, _ => []
  | w + 1, n => hexChar (n % 16) :: toHexRev w (n / 16)

/-- `n` printed as exactly `width` lowercase hex digits (as `hexdigest`
prints a digest of `width/2` bytes). -/
def toHex (width n : Nat) : String :=
  String.mk (toHexRev width n).reverse

/-- Model of the 128-bit digest value of `hashlib.md5`.  The pipeline
uses the digest only as an opaque deterministic value, so the core is a
simple mixing fold with the correct 128-bit range. -/
def md5Core (s : String) : Nat :=
  s.data.foldl (fun a c => (a * 131 + c.toNat + 7) % 2 ^ 128) 88

/-- Model of `hashlib.md5(x.encode()).hexdigest()`: 32 lowercase hex digits. -/
def md5_hexdigest (s : String) : String :=
  toHex 32 (md5Core s)

/-- Model of the 256-bit digest value of `hashlib.sha256` (see `md5Core`). -/
def sha256Core (s : String) : Nat :=
  s.data.foldl (fun a c => (a * 257 + c.toNat + 11) % 2 ^ 256) 1009

/-- Model of `hashlib.sha256(x.encode()).hexdigest()`: 64 lowercase hex digits. -/
def sha256_hexdigest (s : String) : String :=
  toHex 64 (sha256Core s)

/-- A character matched by the class `[a-f0-9]`. -/
def isLowerHex (c : Char) : Bool :=
  ('0' ≤ c && c ≤ '9') || ('a' ≤ c && c ≤ 'f')

/-- `re.match(r'^[a-f0-9]{32,64}$', s)` succeeds. -/
def matchesHex32to64 (s : String) : Bool :=
  decide (32 ≤ s.length) && decide (s.length ≤ 64) && s.data.all isLowerHex

/-- `re.match(r'^[a-f0-9]{64}$', s)` succeeds. -/
def matchesHex64 (s : String) : Bool :=
  decide (s.length = 64) && s.data.all isLowerHex

theorem toHexRev_length (w n : Nat) : (toHexRev w n).length = w := by
  induction w generalizing n with
  | zero => rfl
  | succ w ih => simp [toHexRev, ih]

theorem toHex_length (w n : Nat) : (toHex w n).length = w := by
  simp [toHex, String.length, toHexRev_length]

theorem isLowerHex_hexChar_lt : ∀ m < 16, isLowerHex (hexChar m) = true := by
  decide

theorem isLowerHex_hexChar (n : Nat) : isLowerHex (hexChar (n % 16)) = true :=
  isLowerHex_hexChar_lt _ (Nat.mod_lt _ (by decide))

theorem toHexRev_all_hex (w n : Nat) : (toHexRev w n).all isLowerHex = true := by
  induction w generalizing n with
  | zero => rfl
  | succ w ih => simp [toHexRev, List.all_cons, isLowerHex_hexChar, ih]

theorem toHex_all_hex (w n : Nat) : (toHex w n).data.all isLowerHex = true := by
  simp only [toHex]
  rw [List.all_eq_true]
  intro c hc
  have h := toHexRev_all_hex w n
  rw [List.all_eq_true] at h
  exact h c (List.mem_reverse.mp hc)

theorem matchesHex32to64_md5 (s : String) : matchesHex32to64 (md5_hexdigest s) = true := by
  simp [matchesHex32to64, md5_hexdigest, toHex_length, toHex_all_hex]

theorem matchesHex64_sha256 (s : String) : matchesHex64 (sha256_hexdigest s) = true := by
  simp [matchesHex64, sha256_hexdigest, toHex_length, toHex_all_hex]

theorem md5_hexdigest_length (s : String) : (md5_hexdigest s).length = 32 :=
  toHex_length 32 (md5Core s)

/-- A Python-level error raised inside the state manager and caught by
`load_state` / `save_state` (`except Exception`). -/
inductive PyErr where
  | typeError : PyErr
  | keyError : PyErr
  | valueError : PyErr
  | attributeError : PyErr
deriving DecidableEq, Repr

/-- `str(e)` as interpolated into the recovery reason. -/
def PyErr.text : PyErr → String
  | .typeError => "TypeError"
  | .keyError => "KeyError"
  | .valueError => "Invalid state structure after conversion"
  | .attributeError => "AttributeError"

namespace StateManager

/-- The in-memory default state built in `StateManager.__init__`. -/
def initial_state (now : String) : Doc :=
  [("sent_entries", .obj []),
   ("sent_hashes", .obj []),
   ("stats", .obj []),
   ("metadata", .obj
     [("version", .num (6 / 5)),
      ("created_at", .str now),
      ("last_modified", .null)])]

/-- The fresh state `load_state` builds in its `except` branch, tagged
with a `recovery_reason`. -/
def recovery_state (now reason : String) : Doc :=
  [("sent_entries", .obj []),
   ("sent_hashes", .obj []),
   ("stats", .obj []),
   ("metadata", .obj
     [("version", .num (6 / 5)),
      ("created_at", .str now),
      ("last_modified", .null),
      ("recovery_reason", .str ("Original state corrupted: " ++ reason))])]

/-- `_validate_state`: required keys, dict types for the three maps, key
format and string values for entries and hashes.  The metadata value's
type is (faithfully) not checked. -/
def validate_state (d : Doc) : Bool :=
  dHas d "sent_entries" && dHas d "sent_hashes" && dHas d "stats" && dHas d "metadata" &&
  (match dGet? d "sent_entries" with
   | some (.obj kvs) => kvs.all fun p => matchesHex32to64 p.1 && p.2.isStr
   | _ => false) &&
  (match dGet? d "sent_hashes" with
   | some (.obj kvs) => kvs.all fun p => matchesHex64 p.1 && p.2.isStr
   | _ => false) &&
  (match dGet? d "stats" with
   | some (.obj _) => true
   | _ => false)

/-- The string a dict value sorts by in
`sorted(d.items(), key=lambda x: x[1])`; total on the string values the
sort actually succeeds on. -/
def jStrV : JValue → String
  | .str s => s
  | _ => ""

/-- Ordering of `(key, value)` items by their value string. -/
def itemLe (p q : String × JValue) : Prop :=
  jStrV p.2 ≤ jStrV q.2

instance : DecidableRel itemLe := fun p q => by
  unfold itemLe; infer_instance

instance : IsTotal (String × JValue) itemLe :=
  ⟨fun p q => le_total (jStrV p.2) (jStrV q.2)⟩

instance : IsTrans (String × JValue) itemLe :=
  ⟨fun _ _ _ h1 h2 => le_trans h1 h2⟩

/-- `sorted(d.items(), key=lambda x: x[1])` on a map whose values are
strings; Python's sort is stable, as is insertion sort.  When some value
is not a string Python's `sorted` raises `TypeError` unless all values
happen to share a comparable type, in which case the document fails the
subsequent `_validate_state` (string values required) — either way
`load_state` ends in recovery, so the model raises. -/
def sortByValue (kvs : List (String × JValue)) : Except PyErr (List (String × JValue)) :=
  if kvs.all fun p => p.2.isStr then .ok (List.insertionSort itemLe kvs)
  else .error .typeError

/-- One iteration of `_convert_legacy_state`'s entry loop: a dict item
with a string `post_id` is inserted with its `pub_date` (defaulting to
now); a dict item with a non-string `post_id` raises in the model (in
Python it either raises on hashing or unavoidably fails the subsequent
validation; both end in load recovery); anything else is skipped. -/
def legacy_entry_step (now : String) (acc : List (String × JValue)) (item : JValue) :
    Except PyErr (List (String × JValue)) :=
  match item with
  | .obj ekvs =>
      if dHas ekvs "post_id" then
        match dGet? ekvs "post_id" with
        | some (.str pid) =>
            pure (dSet acc pid ((dGet? ekvs "pub_date").getD (.str now)))
        | _ => .error .typeError
      else pure acc
  | _ => pure acc

/-- `_convert_legacy_state`: rebuild the v1.0 list-based document as the
map-based schema. -/
def convert_legacy_state (legacy : Doc) (now : String) : Except PyErr Doc := do
  let entries ←
    match dGet? legacy "sent_entries" with
    | some (.arr items) => items.foldlM (legacy_entry_step now) []
    | some _ => .error .typeError
    | none => pure []
  let hashes :=
    match dGet? legacy "entry_hashes" with
    | some (.arr hs) =>
        hs.foldl (fun (acc : List (String × JValue)) h =>
          match h with
          | .str hv => if matchesHex64 hv then dSet acc hv (.str now) else acc
          | _ => acc) []
    | _ => []
  let hashesOk : Bool :=
    match dGet? legacy "entry_hashes" with
    | some (.arr hs) => hs.all JValue.isStr
    | _ => true
  if hashesOk then
    let base : Doc :=
      [("sent_entries", .obj entries),
       ("sent_hashes", .obj hashes),
       ("stats", (dGet? legacy "stats").getD (.obj [])),
       ("metadata", .obj
         [("version", .num (6 / 5)),
          ("created_at", .str now),
          ("last_modified", .null),
          ("converted_from_legacy", .jbool true)])]
    let withAux :=
      ["yagpt_cache", "yagpt_error_count", "yagpt_active", "user_settings"].foldl
        (fun (acc : Doc) k =>
          match dGet? legacy k with
          | some v => dSet acc k v
          | none => acc) base
    pure withAux
  else
    -- `re.match` applied to a non-string legacy hash raises TypeError.
    .error .typeError

/-- The body of `load_state`'s `try` block after `json.loads` succeeded,
returning the adopted document and whether the legacy branch fired.  A
non-dict top-level value raises: Python reaches either a `TypeError` on
item assignment or a `KeyError`, all caught by the same handler. -/
def load_body (j : JValue) (now : String) : Except PyErr (Doc × Bool) := do
  match j with
  | .obj d0 =>
    let (d1, migrated) ←
      match dGet? d0 "sent_entries" with
      | some (.arr _) => do
          let c ← convert_legacy_state d0 now
          pure (c, true)
      | _ => pure (d0, false)
    let d2 :=
      if dHas d1 "metadata" then d1
      else dSet d1 "metadata" (.obj
        [("version", .num 1), ("created_at", .str now), ("last_modified", .null)])
    let d3 := if dHas d2 "sent_hashes" then d2 else dSet d2 "sent_hashes" (.obj [])
    let d4 := if dHas d3 "stats" then d3 else dSet d3 "stats" (.obj [])
    let d5 ←
      match dGet? d4 "metadata" with
      | some (.obj m) => pure (dSet d4 "metadata" (.obj (dSet m "last_modified" (.str now))))
      | some _ => .error .typeError
      | none => .error .keyError
    let d6 ←
      match dGet? d5 "sent_entries" with
      | some (.obj kvs) => do
          let s ← sortByValue kvs
          pure (dSet d5 "sent_entries" (.obj s))
      | some _ => pure d5
      | none => .error .keyError
    let d7 ←
      match dGet? d6 "sent_hashes" with
      | some (.obj kvs) => do
          let s ← sortByValue kvs
          pure (dSet d6 "sent_hashes" (.obj s))
      | some _ => pure d6
      | none => .error .keyError
    if validate_state d7 then pure (d7, migrated) else .error .valueError
  | _ => .error .typeError

/-- Result of `load_state`. `backupCreated` records whether
`_create_backup` copied an existing state file. -/
structure LoadResult where
  state : Doc
  migrated : Bool
  recovered : Bool
  backupCreated : Bool

/-- `load_state`.  The file argument distinguishes: no file at all
(`none`), a file whose text is empty or fails `json.loads`
(`some none`), and a file parsing to a JSON value (`some (some j)`). -/
def load_state (file : Option (Option JValue)) (cur : Doc) (now : String) : LoadResult :=
  match file with
  | none => ⟨cur, false, false, false⟩
  | some none =>
      ⟨recovery_state now "State file is empty or not valid JSON", false, true, true⟩
  | some (some j) =>
      match load_body j now with
      | .ok (d, m) => ⟨d, m, false, false⟩
      | .error e => ⟨recovery_state now e.text, false, true, true⟩

/-- `is_entry_sent`: membership in `sent_entries` (an object in every
state the manager ever holds; a missing key defaults to `{}`). -/
def is_entry_sent (st : Doc) (entryId : String) : Bool :=
  match dGet? st "sent_entries" with
  | some (.obj kvs) => dHas kvs entryId
  | _ => false

/-- `is_hash_sent`: membership in `sent_hashes`. -/
def is_hash_sent (st : Doc) (hashValue : String) : Bool :=
  match dGet? st "sent_hashes" with
  | some (.obj kvs) => dHas kvs hashValue
  | _ => false

/-- `StateManager._generate_content_hash`: SHA-256 of title ++ description
(this is the hash `add_sent_entry` stores). -/
def generate_content_hash (title description : String) : String :=
  sha256_hexdigest (title ++ description)

/-- Second half of `add_sent_entry`: store the SHA-256 content hash.
`setdefault('sent_hashes', OrderedDict())` followed by the item
assignment amounts to one `dSet` on the (possibly fresh) hash dict. -/
def add_hash (st2 : Doc) (contentHash now : String) : Doc × Bool :=
  match dGet? st2 "sent_hashes" with
  | some (.obj hkvs) => (dSet st2 "sent_hashes" (.obj (dSet hkvs contentHash (.str now))), true)
  | none => (dSet st2 "sent_hashes" (.obj [(contentHash, .str now)]), true)
  | some _ => (st2, false)

/-- `add_sent_entry`.  Returns the (possibly partially) mutated state and
whether the call completed without raising; the only raise is a map slot
holding a non-dict (`setdefault` hands it back and the item assignment
raises `TypeError`), which no reachable state has. -/
def add_sent_entry (st : Doc) (postId title description now : String) : Doc × Bool :=
  if postId = "" then (st, true)
  else
    match dGet? st "sent_entries" with
    | some (.obj kvs) =>
        add_hash (dSet st "sent_entries" (.obj (dSet kvs postId (.str now))))
          (generate_content_hash title description) now
    | none =>
        add_hash (dSet st "sent_entries" (.obj [(postId, .str now)]))
          (generate_content_hash title description) now
    | some _ => (st, false)

end StateManager

/-- Injected failure point for one `save_state` call: which filesystem
step (if any) raises.  `verifyFail` stands for the re-read temporary file
failing `json.loads`. -/
inductive SaveFault where
  | noFault : SaveFault
  | makedirsFail : SaveFault
  | tempWriteFail : SaveFault
  | verifyFail : SaveFault
  | replaceFail : SaveFault
deriving DecidableEq, Repr

/-- Result of `save_state`: the in-memory state afterwards, the new
canonical file content when the atomic replace went through, whether the
`except` branch created a backup, and whether anything escaped to the
caller (never, the handler catches `Exception`; the model assumes the
backup copy itself succeeds). -/
structure SaveResult where
  state : Doc
  written : Option Doc
  backupCreated : Bool
  raised : Bool

namespace StateManager

/-- Metadata refresh at the top of `save_state`'s `try` block:
`last_modified`, `entries_count`, `hashes_count`.  Raises (model-level)
when `metadata` is absent or not a dict, or a map slot is missing — in
Python the same statements raise `KeyError`/`TypeError`; a non-dict map
slot is collapsed onto the raising branch (reachable states always hold
dicts there, where `len` agrees). -/
def refresh_metadata (st : Doc) (now : String) : Except (Doc × PyErr) Doc := do
  let st1 ←
    match dGet? st "metadata" with
    | some (.obj m) => pure (dSet st "metadata" (.obj (dSet m "last_modified" (.str now))))
    | some _ => .error (st, .typeError)
    | none => .error (st, .keyError)
  let entriesLen ←
    match dGet? st1 "sent_entries" with
    | some (.obj kvs) => pure kvs.length
    | some _ => .error (st1, .typeError)
    | none => .error (st1, .keyError)
  let st2 ←
    match dGet? st1 "metadata" with
    | some (.obj m) =>
        pure (dSet st1 "metadata" (.obj (dSet m "entries_count" (.num entriesLen))))
    | some _ => .error (st1, .typeError)
    | none => .error (st1, .keyError)
  let hashesLen ←
    match dGet? st2 "sent_hashes" with
    | some (.obj kvs) => pure kvs.length
    | some _ => .error (st2, .typeError)
    | none => .error (st2, .keyError)
  match dGet? st2 "metadata" with
  | some (.obj m) =>
      pure (dSet st2 "metadata" (.obj (dSet m "hashes_count" (.num hashesLen))))
  | some _ => .error (st2, .typeError)
  | none => .error (st2, .keyError)

/-- `save_state`: refresh metadata, dump the document to `<file>.tmp`,
re-read and `json.loads` it as a round-trip check, then atomically
replace the canonical file.  Any raise lands in the `except` branch,
which backs up whatever canonical file exists and swallows the error. -/
def save_state (st : Doc) (canonExists : Bool) (now : String) (fault : SaveFault) :
    SaveResult :=
  let failWith := fun (s : Doc) =>
    SaveResult.mk s none canonExists false
  if fault = .makedirsFail then failWith st
  else
    match refresh_metadata st now with
    | .error (s, _) => failWith s
    | .ok st2 =>
        if fault = .tempWriteFail then failWith st2
        else if fault = .verifyFail then failWith st2
        else if fault = .replaceFail then failWith st2
        else ⟨st2, some st2, false, false⟩

/-- Result of `cleanup_old_entries`: state afterwards (mutations made
before a raise are kept, as in Python), whether `save_state` ran, and the
error that escaped, if any (the method has no handler of its own). -/
structure CleanupResult where
  state : Doc
  saved : Bool
  error : Option PyErr

/-- `cleanup_old_entries`: when over the bound, drop the oldest
`count - max_entries` entries, then scan `sent_hashes` — whose first loop
iteration evaluates `sent_entries.peekitem(0)`, a method
`collections.OrderedDict` does not have, raising `AttributeError`.  Only
when `sent_hashes` is empty does the scan not run, and the trimmed state
is saved. -/
def cleanup_old_entries (st : Doc) (maxEntries : Nat) (canonExists : Bool) (now : String) :
    CleanupResult :=
  match dGet? st "sent_entries" with
  | some (.obj kvs) =>
      if kvs.length ≤ maxEntries then ⟨st, false, none⟩
      else
        let toRemove := kvs.length - maxEntries
        let st1 := dSet st "sent_entries" (.obj (kvs.drop toRemove))
        match dGet? st1 "sent_hashes" with
        | some (.obj hs) =>
            if hs.isEmpty then
              let sr := save_state st1 canonExists now .noFault
              ⟨sr.state, true, none⟩
            else ⟨st1, false, some .attributeError⟩
        | some _ => ⟨st1, false, some .typeError⟩
        | none => ⟨st1, false, some .keyError⟩
  | some _ => ⟨st, false, some .typeError⟩
  | none => ⟨st, false, some .keyError⟩

end StateManager

/-- Restriction of Python `str.lower()` to the alphabets the denylist
uses: ASCII letters and the Russian Cyrillic block (А-Я plus Ё). -/
def pyLowerChar (c : Char) : Char :=
  if 'A' ≤ c && c ≤ 'Z' then Char.ofNat (c.toNat + 32)
  else if 'А' ≤ c && c ≤ 'Я' then Char.ofNat (c.toNat + 32)
  else if c = 'Ё' then 'ё'
  else c

/-- `text.lower()` over the characters that occur here. -/
def pyLower (s : String) : String :=
  String.mk (s.data.map pyLowerChar)

/-- Does `hay` start with `needle`? -/
def listStartsWith : List Char → List Char → Bool
  | [], _ => true
  | _ :: _, [] => false
  | a :: n1, b :: h1 => a = b && listStartsWith n1 h1

/-- Does `hay` contain `needle` as a contiguous run (Python `in` on str)? -/
def listInfix (needle : List Char) : List Char → Bool
  | [] => needle.isEmpty
  | b :: h1 => listStartsWith needle (b :: h1) || listInfix needle h1

/-- After `](http` was consumed: the optional `s`, `://`, then `[^\)]+\)`:
at least one non-`)` character followed by a later `)`. -/
def mdScheme (l : List Char) : Bool :=
  let afterScheme : Option (List Char) :=
    if listStartsWith "http://".data l then some (l.drop 7)
    else if listStartsWith "https://".data l then some (l.drop 8)
    else none
  match afterScheme with
  | none => false
  | some r =>
      match r with
      | [] => false
      | c :: r2 => c ≠ ')' && r2.contains ')'

/-- Scan for `](http...` after an opening `[`, with `.*` in between:
any characters except a newline (the pattern uses plain `.`). -/
def mdAfterBracket : List Char → Bool
  | [] => false
  | c :: rest =>
      if c = '\n' then false
      else
        (match c, rest with
         | ']', '(' :: r2 => mdScheme r2
         | _, _ => false) || mdAfterBracket rest

/-- `re.search(r'\[.*\]\(https?://[^\)]+\)', text)` finds a match. -/
def mdSearch : List Char → Bool
  | [] => false
  | c :: rest => (if c = '[' then mdAfterBracket rest else false) || mdSearch rest

namespace BotController

/-- The `skip_phrases` list of `_contains_low_quality_phrases`, verbatim:
the last seven source lines lack separating commas, so Python's adjacent
string literal concatenation fuses them into one eleventh phrase. -/
def skip_phrases : List String :=
  ["в интернете есть много сайтов",
   "посмотрите, что нашлось в поиске",
   "дополнительные материалы:",
   "смотрите также:",
   "читайте далее",
   "читайте также",
   "рекомендуем прочитать",
   "подробнее на сайте",
   "другие источники:",
   "больше информации можно найти",
   "в поиске найденыскидкаскидкикупонкупоныакцияакции"]

/-- `_contains_low_quality_phrases` on `{title, description}`. -/
def contains_low_quality_phrases (title description : String) : Bool :=
  let fullText := (pyLower (title ++ " " ++ description)).data
  skip_phrases.any (fun ph => listInfix ph.data fullText) || mdSearch fullText

/-- Python `s[:i]` for the index values `rfind` can produce. -/
def pySliceTo (l : List Char) (i : Int) : List Char :=
  if i < 0 then l.take (l.length - i.natAbs) else l.take i.toNat

/-- Python `s.rfind(c)`: highest index of `c`, or -1. -/
def pyRfind (l : List Char) (c : Char) : Int :=
  match l.reverse.findIdx? (· = c) with
  | some j => (l.length - 1 - j : Int)
  | none => -1

/-- `_truncate_text`: word-aware truncation.  Faithfully keeps the
walrus-operator quirk: `rfind` returning -1 (no space) is truthy, so the
slice `[:-1]` drops one character before `...` is appended. -/
def truncate_text (text : String) (maxLength : Nat) : String :=
  if text.length ≤ maxLength then text
  else
    let truncated := text.data.take maxLength
    let lastSpace := pyRfind truncated ' '
    let t2 := if lastSpace ≠ 0 then pySliceTo truncated lastSpace else truncated
    String.mk t2 ++ "..."

/-- A candidate post dict after `_normalize_post` fills the defaults. -/
structure Post where
  link : String
  title : String
  description : String
  pub_date : String
  image_url : Option String
  post_id : String
deriving DecidableEq, Repr

/-- A post as it arrives at the pipeline: a feed dict or a bare URL
string (`Union[Dict, str]`). -/
inductive RawPost where
  | dict (p : Post) : RawPost
  | txt (s : String) : RawPost
deriving DecidableEq, Repr

/-- Build a feed dict carrying only content fields. -/
def mkPost (link title description : String) : Post :=
  ⟨link, title, description, "", none, ""⟩

/-- `_quick_normalize`: cheap link+title projection used only for the
duplicate pre-check. -/
def quick_normalize : RawPost → Option Post
  | .dict p => if p.link ≠ "" then some (mkPost p.link p.title "") else none
  | .txt s => if s ≠ "" then some (mkPost s "" "") else none

/-- `_normalize_post`: fill the canonical shape (a dict input keeps its
fields; `setdefault` is the identity on the modelled full dict). -/
def normalize_post (raw : RawPost) (now : String) : Post :=
  match raw with
  | .dict p => p
  | .txt s => { link := s, title := "", description := "", pub_date := now,
                image_url := none, post_id := "" }

/-- `BotController._generate_post_id`: MD5 of link ++ title. -/
def generate_post_id (p : Post) : String :=
  md5_hexdigest (p.link ++ p.title)

/-- `BotController._generate_content_hash`: MD5 of title ++ description.
Note this is a different hash from the SHA-256 the state manager's
`add_sent_entry` stores under the same method name. -/
def generate_content_hash (p : Post) : String :=
  md5_hexdigest (p.title ++ p.description)

/-- `_should_skip_post` (defined in the source but never called by the
pipeline): duplicate check by id, then by the MD5 content hash. -/
def should_skip_post (st : Doc) (p : Post) : Bool :=
  if p.post_id = "" then true
  else if StateManager.is_entry_sent st p.post_id then true
  else if StateManager.is_hash_sent st (generate_content_hash p) then true
  else false

/-- The configuration fields the pipeline reads. -/
structure Config where
  ENABLE_YAGPT : Bool
  MAX_TITLE_LENGTH : Nat
  MAX_DESC_LENGTH : Nat
  IMAGE_SOURCE : String

/-- The external collaborators the pipeline awaits, at the interface
boundary of §6 of the spec: the transform backend, the image resolver
(`.error` = the awaited call raised) and the publisher
(`_send_post_to_telegram`'s boolean outcome; its internal text cleanup
feeds into the collaborator's answer and is folded into the oracle). -/
structure Collab where
  yagptAvailable : Bool
  enhance : String → String → Option (String × String)
  image : Post → Except Unit (Option String)
  send : String → String → String → Option String → Bool

/-- `_process_post_content`, returning the processed `{title, description}`
(or `none` = skip this post) and how many times the transform backend was
called. -/
def process_post_content (cfg : Config) (orc : Collab) (p : Post) :
    Option (String × String) × Nat :=
  if p.title.length < 5 || p.description.length < 20 then (none, 0)
  else
    let useAi := cfg.ENABLE_YAGPT && orc.yagptAvailable
    if !useAi then
      (some (truncate_text p.title cfg.MAX_TITLE_LENGTH,
             truncate_text p.description cfg.MAX_DESC_LENGTH), 0)
    else
      match orc.enhance p.title p.description with
      | none => (none, 1)
      | some (t, d) =>
          let pt := truncate_text t cfg.MAX_TITLE_LENGTH
          let pd := truncate_text d cfg.MAX_DESC_LENGTH
          if contains_low_quality_phrases pt pd then (none, 1)
          else (some (pt, pd), 1)

/-- Instrumented outcome of `_process_single_post`. -/
structure ProcResult where
  state : Doc
  retval : Bool
  publishResult : Option Bool
  stateAtPublish : Option Doc
  enhanceCalls : Nat
  imageCalls : Nat
  saveCalls : Nat

/-- `_process_single_post`: normalize, derive the id, transform, resolve
an image, publish, and only on a confirmed success record the post via
`add_sent_entry` (a raise inside the recording lands in the method's
`except` and flips the return to `False`).  `saveCalls` counts
`save_state` invocations — the method makes none. -/
def process_single_post (cfg : Config) (orc : Collab) (st : Doc) (raw : RawPost)
    (now : String) : ProcResult :=
  let p0 := normalize_post raw now
  let pid := generate_post_id p0
  let p := { p0 with post_id := pid }
  match process_post_content cfg orc p with
  | (none, ec) => ⟨st, false, none, none, ec, 0, 0⟩
  | (some (pt, pd), ec) =>
      let imgStep : Option (Option String) × Nat :=
        if cfg.IMAGE_SOURCE ≠ "none" then
          match orc.image p with
          | .error _ =>
              if cfg.IMAGE_SOURCE = "required" then (none, 1) else (some none, 1)
          | .ok v =>
              if v.isNone && (cfg.IMAGE_SOURCE = "required") then (none, 1)
              else (some v, 1)
        else (some none, 0)
      match imgStep with
      | (none, ic) => ⟨st, false, none, none, ec, ic, 0⟩
      | (some imagePath, ic) =>
          let ok := orc.send pt pd p.link imagePath
          if ok then
            match StateManager.add_sent_entry st p.post_id p.title p.description now with
            | (st2, true) => ⟨st2, true, some true, some st, ec, ic, 0⟩
            | (st2, false) => ⟨st2, false, some true, some st, ec, ic, 0⟩
          else ⟨st, false, some false, some st, ec, ic, 0⟩

/-- Instrumented outcome of `_process_new_posts` over one batch. -/
structure BatchResult where
  state : Doc
  publishCalls : Nat
  publishSuccesses : Nat
  enhanceCalls : Nat
  imageCalls : Nat
  saveCalls : Nat
  duplicates : Nat
  processed : Nat
  skipped : Nat

/-- `_process_new_posts`: per post, quick-normalize, derive the identity,
drop it when `is_entry_sent` already knows it (the FILTERING
short-circuit, before any transform or image work), otherwise run
`_process_single_post` on the original raw post. -/
def process_new_posts (cfg : Config) (orc : Collab) (st : Doc) (posts : List RawPost)
    (now : String) : BatchResult :=
  posts.foldl
    (fun acc raw =>
      match quick_normalize raw with
      | none => { acc with skipped := acc.skipped + 1 }
      | some qp =>
          if StateManager.is_entry_sent acc.state (generate_post_id qp) then
            { acc with duplicates := acc.duplicates + 1 }
          else
            let r := process_single_post cfg orc acc.state raw now
            { state := r.state,
              publishCalls := acc.publishCalls + (if r.publishResult.isSome then 1 else 0),
              publishSuccesses :=
                acc.publishSuccesses + (if r.publishResult = some true then 1 else 0),
              enhanceCalls := acc.enhanceCalls + r.enhanceCalls,
              imageCalls := acc.imageCalls + r.imageCalls,
              saveCalls := acc.saveCalls + r.saveCalls,
              duplicates := acc.duplicates,
              processed := acc.processed + (if r.retval then 1 else 0),
              skipped := acc.skipped + (if r.retval then 0 else 1) })
    ⟨st, 0, 0, 0, 0, 0, 0, 0, 0⟩

/-- One iteration of `_rss_processing_loop` after the feeds were fetched:
process the batch, then save the state only when more than 300 seconds
passed since the last save.  Returns the batch outcome and the total
number of `save_state` calls the iteration makes. -/
def rss_cycle (cfg : Config) (orc : Collab) (st : Doc) (posts : List RawPost)
    (now : String) (lastSaveTime tNow : Nat) : BatchResult × Nat :=
  let b := process_new_posts cfg orc st posts now
  (b, b.saveCalls + (if 300 < tNow - lastSaveTime then 1 else 0))

end BotController

theorem dGet?_dSet_self (d : Doc) (k : String) (v : JValue) :
    dGet? (dSet d k v) k = some v := by
  induction d with
  | nil => simp [dSet, dGet?]
  | cons p rest ih =>
      obtain ⟨k1, v1⟩ := p
      by_cases h : k1 = k
      · simp [dSet, dGet?, h]
      · simp [dSet, dGet?, h, ih]

theorem dGet?_dSet_ne (d : Doc) (k k2 : String) (v : JValue) (h : k ≠ k2) :
    dGet? (dSet d k v) k2 = dGet? d k2 := by
  induction d with
  | nil => simp [dSet, dGet?, h]
  | cons p rest ih =>
      obtain ⟨k1, v1⟩ := p
      by_cases h1 : k1 = k
      · subst h1
        simp [dSet, dGet?, h]
      · simp [dSet, dGet?, h1, ih]

theorem dHas_dSet_self (d : Doc) (k : String) (v : JValue) :
    dHas (dSet d k v) k = true := by
  simp [dHas, dGet?_dSet_self]

theorem dHas_dSet_ne (d : Doc) (k k2 : String) (v : JValue) (h : k ≠ k2) :
    dHas (dSet d k v) k2 = dHas d k2 := by
  simp [dHas, dGet?_dSet_ne _ _ _ _ h]

theorem dSet_length_of_not_has (d : Doc) (k : String) (v : JValue)
    (h : dHas d k = false) : (dSet d k v).length = d.length + 1 := by
  induction d with
  | nil => simp [dSet]
  | cons p rest ih =>
      obtain ⟨k1, v1⟩ := p
      by_cases h1 : k1 = k
      · simp [dHas, dGet?, h1] at h
      · simp [dHas, dGet?, h1] at h
        simp [dSet, h1, ih (by simp [dHas, h])]

/-- Is the load-recovery tag present in the state's metadata? -/
def has_recovery_reason (st : Doc) : Bool :=
  match dGet? st "metadata" with
  | some (.obj m) => dHas m "recovery_reason"
  | _ => false

theorem validate_recovery_state (now reason : String) :
    StateManager.validate_state (StateManager.recovery_state now reason) = true := rfl

/-- Claim C5: whenever the state file exists but is empty, truncated,
invalid JSON, or structurally invalid (every case where the `try` body of
`load_state` raises), the load ends without raising, holding the fresh
recovery state — valid, empty, tagged with a `recovery_reason` — and a
backup of the original file was created. -/
theorem c5_crash_safe_load (fc : Option JValue) (cur : Doc) (now : String)
    (h : ∀ j, fc = some j → ∃ e, StateManager.load_body j now = .error e) :
    (StateManager.load_state (some fc) cur now).recovered = true ∧
    (StateManager.load_state (some fc) cur now).backupCreated = true ∧
    StateManager.validate_state (StateManager.load_state (some fc) cur now).state = true ∧
    has_recovery_reason (StateManager.load_state (some fc) cur now).state = true ∧
    dGet? (StateManager.load_state (some fc) cur now).state "sent_entries" = some (.obj []) ∧
    dGet? (StateManager.load_state (some fc) cur now).state "sent_hashes" = some (.obj []) := by
  match fc with
  | none =>
      refine ⟨rfl, rfl, validate_recovery_state _ _, rfl, rfl, rfl⟩
  | some j =>
      obtain ⟨e, he⟩ := h j rfl
      have hr : StateManager.load_state (some (some j)) cur now =
          ⟨StateManager.recovery_state now e.text, false, true, true⟩ := by
        simp only [StateManager.load_state, he]
      rw [hr]
      exact ⟨rfl, rfl, validate_recovery_state _ _, rfl, rfl, rfl⟩

/-- Witness for C5 at a concrete corrupt file: the JSON document `[5]`
(valid JSON, wrong structure). -/
theorem c5_crash_safe_load_witness :
    (StateManager.load_state (some (some (.arr [.num 5])))
      (StateManager.initial_state "t0") "t1").recovered = true ∧
    has_recovery_reason
      (StateManager.load_state (some (some (.arr [.num 5])))
        (StateManager.initial_state "t0") "t1").state = true := by
  have h := c5_crash_safe_load (some (.arr [.num 5])) (StateManager.initial_state "t0") "t1"
    (by intro j hj; cases hj; exact ⟨.typeError, rfl⟩)
  exact ⟨h.1, h.2.2.2.1⟩

/-- A state over the cleanup bound: two entries, one content hash,
`max_entries = 1`. -/
def c7_state : Doc :=
  [("sent_entries", .obj [("k1", .str "2024-01-01T00:00:00"),
                          ("k2", .str "2024-01-02T00:00:00")]),
   ("sent_hashes", .obj [("h1", .str "2024-01-01T00:00:00")]),
   ("stats", .obj []),
   ("metadata", .obj [("version", .num (6 / 5)), ("created_at", .str "t0"),
                      ("last_modified", .null)])]

/-- Claim C7 is wrong about the code: on any state over the bound whose
`sent_hashes` is non-empty, `cleanup_old_entries` does not return
normally.  After deleting the oldest entry it evaluates
`sent_entries.peekitem(0)` — no such method exists on
`collections.OrderedDict` — so an `AttributeError` escapes, nothing is
persisted, and `sent_hashes` keeps its stale hash. -/
theorem c7_cleanup_crash :
    (StateManager.cleanup_old_entries c7_state 1 true "t1").error =
      some PyErr.attributeError ∧
    (StateManager.cleanup_old_entries c7_state 1 true "t1").saved = false ∧
    dGet? (StateManager.cleanup_old_entries c7_state 1 true "t1").state "sent_entries" =
      some (.obj [("k2", .str "2024-01-02T00:00:00")]) ∧
    dGet? (StateManager.cleanup_old_entries c7_state 1 true "t1").state "sent_hashes" =
      some (.obj [("h1", .str "2024-01-01T00:00:00")]) :=
  ⟨rfl, rfl, rfl, rfl⟩

/-- Pipeline configuration with the transform backend and images off. -/
def c2_cfg : BotController.Config := ⟨false, 100, 500, "none"⟩

/-- Collaborators: publisher accepts everything; backend/image unused. -/
def c2_orc : BotController.Collab :=
  ⟨false, fun _ _ => none, fun _ => .ok none, fun _ _ _ _ => true⟩

/-- First article. -/
def c2_first : BotController.Post :=
  BotController.mkPost "https://a/1" "Breaking News Today"
    "A sufficiently long description of at least twenty characters."

/-- Re-syndicated copy: different link, identical title and description. -/
def c2_second : BotController.Post :=
  BotController.mkPost "https://a/2" "Breaking News Today"
    "A sufficiently long description of at least twenty characters."

set_option maxRecDepth 8000 in
/-- Claim C2 is wrong about the code: two posts with different links but
identical title and description are BOTH published — the pipeline's only
dedup check is `is_entry_sent` on the link+title id; the content-hash
check lives in `_should_skip_post`, which no pipeline code path calls,
and it computes an MD5 hash that could never be found among the SHA-256
hashes `add_sent_entry` stores (the last two conjuncts exhibit the
mismatch on the state left by the first publish). -/
theorem c2_no_content_dedup :
    (BotController.process_new_posts c2_cfg c2_orc (StateManager.initial_state "t0")
      [.dict c2_first, .dict c2_second] "t1").publishCalls = 2 ∧
    (BotController.process_new_posts c2_cfg c2_orc (StateManager.initial_state "t0")
      [.dict c2_first, .dict c2_second] "t1").publishSuccesses = 2 ∧
    StateManager.is_hash_sent
      (BotController.process_single_post c2_cfg c2_orc (StateManager.initial_state "t0")
        (.dict c2_first) "t1").state
      (BotController.generate_content_hash c2_second) = false ∧
    StateManager.is_hash_sent
      (BotController.process_single_post c2_cfg c2_orc (StateManager.initial_state "t0")
        (.dict c2_first) "t1").state
      (StateManager.generate_content_hash c2_second.title c2_second.description) = true :=
  ⟨rfl, rfl, rfl, rfl⟩

/-- The in-memory document after `save_state`'s metadata refresh,
whether or not the refresh raised partway. -/
def refresh_out (st : Doc) (now : String) : Doc :=
  match StateManager.refresh_metadata st now with
  | .ok s => s
  | .error (s, _) => s

/-- Does the state's metadata dict carry the key `k`? -/
def meta_has (st : Doc) (k : String) : Bool :=
  match dGet? st "metadata" with
  | some (.obj m) => dHas m k
  | _ => false

/-- The shape every state the manager actually holds has: `metadata`,
`sent_entries` and `sent_hashes` are dicts. -/
def canonical_shape (st : Doc) : Bool :=
  (match dGet? st "metadata" with | some (.obj _) => true | _ => false) &&
  (match dGet? st "sent_entries" with | some (.obj _) => true | _ => false) &&
  (match dGet? st "sent_hashes" with | some (.obj _) => true | _ => false)

theorem refresh_out_get (st : Doc) (now k : String) (hk : k ≠ "metadata") :
    dGet? (refresh_out st now) k = dGet? st k := by
  have hne : ∀ (d : Doc) (v : JValue), dGet? (dSet d "metadata" v) k = dGet? d k :=
    fun d v => dGet?_dSet_ne _ _ _ _ (Ne.symm hk)
  unfold refresh_out
  rcases h : StateManager.refresh_metadata st now with s | ⟨s, e⟩ <;>
  · unfold StateManager.refresh_metadata at h
    simp only [bind, Except.bind, pure, Except.pure] at h
    repeat split at h
    all_goals (try simp only [Except.ok.injEq, Except.error.injEq, Prod.mk.injEq] at h)
    all_goals (try rw [← h])
    all_goals simp [hne]

theorem refresh_metadata_ok_of_shape (st : Doc) (now : String)
    (h : canonical_shape st = true) :
    StateManager.refresh_metadata st now = .ok (refresh_out st now) := by
  have e1 : ∀ (d : Doc) (v : JValue),
      dGet? (dSet d "metadata" v) "sent_entries" = dGet? d "sent_entries" :=
    fun d v => dGet?_dSet_ne _ _ _ _ (by decide)
  have e2 : ∀ (d : Doc) (v : JValue),
      dGet? (dSet d "metadata" v) "sent_hashes" = dGet? d "sent_hashes" :=
    fun d v => dGet?_dSet_ne _ _ _ _ (by decide)
  unfold canonical_shape at h
  rcases hm : dGet? st "metadata" with _ | vm <;> rw [hm] at h <;> try simp at h
  cases vm <;> simp at h
  case obj m =>
  rcases he : dGet? st "sent_entries" with _ | ve <;> rw [he] at h <;> try simp at h
  cases ve <;> simp at h
  case obj es =>
  rcases hh : dGet? st "sent_hashes" with _ | vh <;> rw [hh] at h <;> try simp at h
  cases vh <;> simp at h
  case obj hs =>
  unfold refresh_out StateManager.refresh_metadata
  simp [bind, Except.bind, pure, Except.pure, hm, he, hh, e1, e2,
    dGet?_dSet_self]

theorem save_state_eq (st : Doc) (canonExists : Bool) (now : String) (fault : SaveFault) :
    StateManager.save_state st canonExists now fault =
      if fault = .makedirsFail then ⟨st, none, canonExists, false⟩
      else if (StateManager.refresh_metadata st now).isOk ∧ fault = .noFault then
        ⟨refresh_out st now, some (refresh_out st now), false, false⟩
      else ⟨refresh_out st now, none, canonExists, false⟩ := by
  rcases h : StateManager.refresh_metadata st now with s | ⟨s, e⟩ <;>
    cases fault <;>
      simp [StateManager.save_state, refresh_out, h, Except.isOk, Except.toBool]

/-- Claim C6 is wrong in one conjunct: a failing save does change the
in-memory state, because `save_state` refreshes `metadata`
(`last_modified`, `entries_count`, `hashes_count`) before the first
fallible write.  On the fresh state, whose metadata has no
`entries_count`, a temp-file write failure leaves a state that differs
from the one save was called with (while entries, hashes and stats are
untouched — see the amended theorem). -/
theorem c6_save_failure_mutates :
    (StateManager.save_state (StateManager.initial_state "t0") true "t1"
      .tempWriteFail).raised = false ∧
    (StateManager.save_state (StateManager.initial_state "t0") true "t1"
      .tempWriteFail).backupCreated = true ∧
    (StateManager.save_state (StateManager.initial_state "t0") true "t1"
      .tempWriteFail).written = none ∧
    meta_has (StateManager.save_state (StateManager.initial_state "t0") true "t1"
      .tempWriteFail).state "entries_count" = true ∧
    meta_has (StateManager.initial_state "t0") "entries_count" = false ∧
    (StateManager.save_state (StateManager.initial_state "t0") true "t1"
      .tempWriteFail).state ≠ StateManager.initial_state "t0" := by
  refine ⟨rfl, rfl, rfl, rfl, rfl, ?_⟩
  intro heq
  have h1 : meta_has (StateManager.save_state (StateManager.initial_state "t0") true "t1"
      .tempWriteFail).state "entries_count" = true := rfl
  rw [heq] at h1
  exact absurd h1 (by decide)

/-- Claim C6, amended: `save_state` never raises to the caller, a backup
of whatever canonical file exists is taken whenever the atomic replace
did not happen, the durable maps (`sent_entries`, `sent_hashes`) and
`stats` are unchanged in memory, and with no fault injected a
canonically-shaped state is written in full through the
temp-write/verify/replace sequence.  (The claim's "in-memory state is
unchanged" holds only outside `metadata`, which the save refreshes.) -/
theorem c6_amended (st : Doc) (canonExists : Bool) (now : String) (fault : SaveFault) :
    (StateManager.save_state st canonExists now fault).raised = false ∧
    ((StateManager.save_state st canonExists now fault).written = none →
      (StateManager.save_state st canonExists now fault).backupCreated = canonExists) ∧
    dGet? (StateManager.save_state st canonExists now fault).state "sent_entries" =
      dGet? st "sent_entries" ∧
    dGet? (StateManager.save_state st canonExists now fault).state "sent_hashes" =
      dGet? st "sent_hashes" ∧
    dGet? (StateManager.save_state st canonExists now fault).state "stats" =
      dGet? st "stats" ∧
    (fault = SaveFault.noFault → canonical_shape st = true →
      (StateManager.save_state st canonExists now fault).written =
        some (StateManager.save_state st canonExists now fault).state) := by
  rw [save_state_eq]
  by_cases hmk : fault = SaveFault.makedirsFail
  · subst hmk
    simp
  · rw [if_neg hmk]
    by_cases hok : (StateManager.refresh_metadata st now).isOk ∧ fault = SaveFault.noFault
    · rw [if_pos hok]
      refine ⟨rfl, ?_, ?_, ?_, ?_, fun _ _ => rfl⟩
      · intro h
        exact Option.noConfusion h
      · exact refresh_out_get st now _ (by decide)
      · exact refresh_out_get st now _ (by decide)
      · exact refresh_out_get st now _ (by decide)
    · rw [if_neg hok]
      refine ⟨rfl, fun _ => rfl, ?_, ?_, ?_, ?_⟩
      · exact refresh_out_get st now _ (by decide)
      · exact refresh_out_get st now _ (by decide)
      · exact refresh_out_get st now _ (by decide)
      · intro hf hshape
        exact absurd ⟨by rw [refresh_metadata_ok_of_shape st now hshape]; rfl, hf⟩ hok

/-- Witness for the amended C6: a fault-free save of the fresh state
writes the refreshed document. -/
theorem c6_amended_witness :
    (StateManager.save_state (StateManager.initial_state "t0") false "t1"
      .noFault).written =
      some (StateManager.save_state (StateManager.initial_state "t0") false "t1"
        .noFault).state :=
  (c6_amended (StateManager.initial_state "t0") false "t1" .noFault).2.2.2.2.2
    rfl (by decide)

/-- The `sent_entries` map of a state (empty for a missing or non-dict
slot, which no reachable state has). -/
def sent_entries_list (st : Doc) : List (String × JValue) :=
  match dGet? st "sent_entries" with
  | some (.obj kvs) => kvs
  | _ => []

/-- The `sent_hashes` map of a state. -/
def sent_hashes_list (st : Doc) : List (String × JValue) :=
  match dGet? st "sent_hashes" with
  | some (.obj kvs) => kvs
  | _ => []

/-- What a completed `add_sent_entry` did: one new binding in each map,
everything else untouched. -/
theorem add_sent_entry_ok (st : Doc) (pid t d now : String) (hpid : pid ≠ "")
    (hok : (StateManager.add_sent_entry st pid t d now).2 = true) :
    dGet? (StateManager.add_sent_entry st pid t d now).1 "sent_entries" =
      some (.obj (dSet (sent_entries_list st) pid (.str now))) ∧
    dGet? (StateManager.add_sent_entry st pid t d now).1 "sent_hashes" =
      some (.obj (dSet (sent_hashes_list st)
        (StateManager.generate_content_hash t d) (.str now))) ∧
    (∀ k, k ≠ "sent_entries" → k ≠ "sent_hashes" →
      dGet? (StateManager.add_sent_entry st pid t d now).1 k = dGet? st k) := by
  have hEH : ∀ (dd : Doc) (v : JValue),
      dGet? (dSet dd "sent_entries" v) "sent_hashes" = dGet? dd "sent_hashes" :=
    fun dd v => dGet?_dSet_ne _ _ _ _ (by decide)
  have hHE : ∀ (dd : Doc) (v : JValue),
      dGet? (dSet dd "sent_hashes" v) "sent_entries" = dGet? dd "sent_entries" :=
    fun dd v => dGet?_dSet_ne _ _ _ _ (by decide)
  unfold StateManager.add_sent_entry at hok ⊢
  rw [if_neg hpid] at hok ⊢
  rcases he : dGet? st "sent_entries" with _ | ev
  case none =>
    simp only [he, StateManager.add_hash, hEH] at hok ⊢
    rcases hh : dGet? st "sent_hashes" with _ | hv
    case none =>
      simp only [hh]
      refine ⟨?_, ?_, ?_⟩
      · rw [hHE, dGet?_dSet_self]
        simp [sent_entries_list, he, dSet]
      · rw [dGet?_dSet_self]
        simp [sent_hashes_list, hh, dSet]
      · intro k hk1 hk2
        rw [dGet?_dSet_ne _ _ _ _ (Ne.symm hk2), dGet?_dSet_ne _ _ _ _ (Ne.symm hk1)]
    case some =>
      cases hv
      case obj hkvs =>
        simp only [hh]
        refine ⟨?_, ?_, ?_⟩
        · rw [hHE, dGet?_dSet_self]
          simp [sent_entries_list, he, dSet]
        · rw [dGet?_dSet_self]
          simp [sent_hashes_list, hh]
        · intro k hk1 hk2
          rw [dGet?_dSet_ne _ _ _ _ (Ne.symm hk2), dGet?_dSet_ne _ _ _ _ (Ne.symm hk1)]
      all_goals simp [hh] at hok
  case some =>
    cases ev
    case obj kvs =>
      simp only [he, StateManager.add_hash, hEH] at hok ⊢
      rcases hh : dGet? st "sent_hashes" with _ | hv
      case none =>
        simp only [hh]
        refine ⟨?_, ?_, ?_⟩
        · rw [hHE, dGet?_dSet_self]
          simp [sent_entries_list, he]
        · rw [dGet?_dSet_self]
          simp [sent_hashes_list, hh, dSet]
        · intro k hk1 hk2
          rw [dGet?_dSet_ne _ _ _ _ (Ne.symm hk2), dGet?_dSet_ne _ _ _ _ (Ne.symm hk1)]
      case some =>
        cases hv
        case obj hkvs =>
          simp only [hh]
          refine ⟨?_, ?_, ?_⟩
          · rw [hHE, dGet?_dSet_self]
            simp [sent_entries_list, he]
          · rw [dGet?_dSet_self]
            simp [sent_hashes_list, hh]
          · intro k hk1 hk2
            rw [dGet?_dSet_ne _ _ _ _ (Ne.symm hk2), dGet?_dSet_ne _ _ _ _ (Ne.symm hk1)]
        all_goals simp [hh] at hok
    all_goals simp [he] at hok

/-- Case analysis of `_process_single_post`: it never saves, the state at
the moment of the publish call (if one happens) is exactly the state the
post started with, and either nothing was recorded (no confirmed publish)
or the publisher confirmed and the outcome is exactly an
`add_sent_entry` on the starting state. -/
theorem process_single_post_spec (cfg : BotController.Config)
    (orc : BotController.Collab) (st : Doc) (raw : BotController.RawPost) (now : String) :
    (BotController.process_single_post cfg orc st raw now).saveCalls = 0 ∧
    ((BotController.process_single_post cfg orc st raw now).stateAtPublish = none ∨
     (BotController.process_single_post cfg orc st raw now).stateAtPublish = some st) ∧
    (((BotController.process_single_post cfg orc st raw now).state = st ∧
      (BotController.process_single_post cfg orc st raw now).retval = false ∧
      (BotController.process_single_post cfg orc st raw now).publishResult ≠ some true) ∨
     ((BotController.process_single_post cfg orc st raw now).publishResult = some true ∧
      (BotController.process_single_post cfg orc st raw now).state =
        (StateManager.add_sent_entry st
          (BotController.generate_post_id (BotController.normalize_post raw now))
          (BotController.normalize_post raw now).title
          (BotController.normalize_post raw now).description now).1 ∧
      (BotController.process_single_post cfg orc st raw now).retval =
        (StateManager.add_sent_entry st
          (BotController.generate_post_id (BotController.normalize_post raw now))
          (BotController.normalize_post raw now).title
          (BotController.normalize_post raw now).description now).2)) := by
  unfold BotController.process_single_post
  dsimp only
  repeat' split
  all_goals refine ⟨rfl, ?_, ?_⟩
  all_goals first
    | exact Or.inl rfl
    | exact Or.inr rfl
    | (left; exact ⟨rfl, rfl, by simp⟩)
    | (right; refine ⟨rfl, ?_, ?_⟩ <;> simp_all)

theorem is_entry_sent_eq_dHas (st : Doc) (pid : String) :
    StateManager.is_entry_sent st pid = dHas (sent_entries_list st) pid := by
  unfold StateManager.is_entry_sent sent_entries_list
  rcases dGet? st "sent_entries" with _ | v
  · rfl
  · cases v <;> rfl

theorem is_hash_sent_eq_dHas (st : Doc) (hv : String) :
    StateManager.is_hash_sent st hv = dHas (sent_hashes_list st) hv := by
  unfold StateManager.is_hash_sent sent_hashes_list
  rcases dGet? st "sent_hashes" with _ | v
  · rfl
  · cases v <;> rfl

theorem generate_post_id_ne_empty (p : BotController.Post) :
    BotController.generate_post_id p ≠ "" := by
  intro h
  have h1 := md5_hexdigest_length (p.link ++ p.title)
  unfold BotController.generate_post_id at h
  rw [h] at h1
  simp [String.length] at h1

/-- A confirmed single-post run records the post's identity. -/
theorem retval_entry_recorded (cfg : BotController.Config)
    (orc : BotController.Collab) (st : Doc) (raw : BotController.RawPost) (now : String)
    (h : (BotController.process_single_post cfg orc st raw now).retval = true) :
    StateManager.is_entry_sent (BotController.process_single_post cfg orc st raw now).state
      (BotController.generate_post_id (BotController.normalize_post raw now)) = true := by
  have spec := process_single_post_spec cfg orc st raw now
  rcases spec.2.2 with ⟨_, hfalse, _⟩ | ⟨_, hstate, hret⟩
  · rw [h] at hfalse
    cases hfalse
  · have hok : (StateManager.add_sent_entry st
        (BotController.generate_post_id (BotController.normalize_post raw now))
        (BotController.normalize_post raw now).title
        (BotController.normalize_post raw now).description now).2 = true := by
      rw [← hret]
      exact h
    obtain ⟨hE, -, -⟩ := add_sent_entry_ok st _ _ _ now
      (generate_post_id_ne_empty _) hok
    rw [hstate]
    simp only [StateManager.is_entry_sent, hE]
    exact dHas_dSet_self _ _ _

theorem process_new_posts_saveCalls (cfg : BotController.Config)
    (orc : BotController.Collab) (st : Doc) (posts : List BotController.RawPost)
    (now : String) :
    (BotController.process_new_posts cfg orc st posts now).saveCalls = 0 := by
  unfold BotController.process_new_posts
  suffices h : ∀ acc : BotController.BatchResult,
      (posts.foldl _ acc).saveCalls = acc.saveCalls by
    exact h _
  induction posts with
  | nil => intro acc; rfl
  | cons raw rest ih =>
      intro acc
      rw [List.foldl_cons, ih]
      rcases hq : BotController.quick_normalize raw with _ | qp
      · simp [hq]
      · simp only [hq]
        split
        · rfl
        · have hs := (process_single_post_spec cfg orc acc.state raw now).1
          simp [hs]

/-- Claim C3: in a single post's processing run, the state is recorded
through `add_sent_entry` only after the publish call returned success:
at the moment the publish call is issued the state is still untouched,
and a run whose publish call failed (or raised — the send wrapper
converts a raise to `False`) leaves the state exactly as it was. -/
theorem c3_record_only_after_publish (cfg : BotController.Config)
    (orc : BotController.Collab) (st : Doc) (raw : BotController.RawPost) (now : String) :
    ((BotController.process_single_post cfg orc st raw now).publishResult ≠ some true →
      (BotController.process_single_post cfg orc st raw now).state = st) ∧
    ((BotController.process_single_post cfg orc st raw now).stateAtPublish = none ∨
     (BotController.process_single_post cfg orc st raw now).stateAtPublish = some st) := by
  have spec := process_single_post_spec cfg orc st raw now
  refine ⟨?_, spec.2.1⟩
  intro h
  rcases spec.2.2 with ⟨hst, -, -⟩ | ⟨hpr, -, -⟩
  · exact hst
  · exact absurd hpr h

/-- Witness for C3: a publisher that rejects the post leaves the fresh
state untouched. -/
theorem c3_record_only_after_publish_witness :
    (BotController.process_single_post c2_cfg
      ⟨false, fun _ _ => none, fun _ => .ok none, fun _ _ _ _ => false⟩
      (StateManager.initial_state "t0") (.dict c2_first) "t1").state =
      StateManager.initial_state "t0" :=
  (c3_record_only_after_publish c2_cfg
    ⟨false, fun _ _ => none, fun _ => .ok none, fun _ _ _ _ => false⟩
    (StateManager.initial_state "t0") (.dict c2_first) "t1").1 (by decide)

/-- Claim C1 is wrong about the code: a successful publish is NOT
followed by a save of the state file before the pipeline moves on.
A batch containing one post whose publish call succeeds completes with
one confirmed publish and zero `save_state` calls (neither
`_update_stats_after_post` nor `add_sent_entry` saves). -/
theorem c1_no_save_after_publish :
    (BotController.process_new_posts c2_cfg c2_orc (StateManager.initial_state "t0")
      [.dict c2_first] "t1").publishSuccesses = 1 ∧
    (BotController.process_new_posts c2_cfg c2_orc (StateManager.initial_state "t0")
      [.dict c2_first] "t1").saveCalls = 0 :=
  ⟨rfl, rfl⟩

/-- Claim C1, amended: after a successful publish the post's record is
added to the in-memory state before the pipeline moves on, but no state
file save happens during post processing; within the cycle loop the only
save is the periodic one (more than 300 seconds since the last save) —
the flush on graceful shutdown lives in `stop()`, outside the loop. -/
theorem c1_amended (cfg : BotController.Config) (orc : BotController.Collab)
    (st : Doc) (posts : List BotController.RawPost) (raw : BotController.RawPost)
    (now : String) (lastSaveTime tNow : Nat) :
    (BotController.rss_cycle cfg orc st posts now lastSaveTime tNow).2 =
      (if 300 < tNow - lastSaveTime then 1 else 0) ∧
    ((BotController.process_single_post cfg orc st raw now).retval = true →
      StateManager.is_entry_sent
        (BotController.process_single_post cfg orc st raw now).state
        (BotController.generate_post_id (BotController.normalize_post raw now)) = true) := by
  constructor
  · unfold BotController.rss_cycle
    simp [process_new_posts_saveCalls]
  · exact retval_entry_recorded cfg orc st raw now

/-- Witness for the amended C1 at a concrete successful publish inside a
cycle that is not yet due for a periodic save. -/
theorem c1_amended_witness :
    (BotController.rss_cycle c2_cfg c2_orc (StateManager.initial_state "t0")
      [.dict c2_first] "t1" 0 100).2 = (if 300 < 100 - 0 then 1 else 0) ∧
    StateManager.is_entry_sent
      (BotController.process_single_post c2_cfg c2_orc (StateManager.initial_state "t0")
        (.dict c2_first) "t1").state
      (BotController.generate_post_id
        (BotController.normalize_post (.dict c2_first) "t1")) = true :=
  ⟨(c1_amended c2_cfg c2_orc (StateManager.initial_state "t0") [.dict c2_first]
      (.dict c2_first) "t1" 0 100).1,
   (c1_amended c2_cfg c2_orc (StateManager.initial_state "t0") [.dict c2_first]
      (.dict c2_first) "t1" 0 100).2 rfl⟩

/-- `_process_post_content` returns the skip signal whenever the
ORIGINAL content is below the length thresholds or the (truncated)
transform result trips the denylist. -/
theorem process_post_content_skips (cfg : BotController.Config)
    (orc : BotController.Collab) (p : BotController.Post)
    (h : p.title.length < 5 ∨ p.description.length < 20 ∨
         (cfg.ENABLE_YAGPT = true ∧ orc.yagptAvailable = true ∧
          ∃ t dd, orc.enhance p.title p.description = some (t, dd) ∧
            BotController.contains_low_quality_phrases
              (BotController.truncate_text t cfg.MAX_TITLE_LENGTH)
              (BotController.truncate_text dd cfg.MAX_DESC_LENGTH) = true)) :
    (BotController.process_post_content cfg orc p).1 = none := by
  unfold BotController.process_post_content
  by_cases hlen : (p.title.length < 5 || p.description.length < 20) = true
  · simp only [hlen]
    rfl
  · rw [if_neg (by simpa using hlen)]
    simp only [Bool.or_eq_true, decide_eq_true_eq, not_or] at hlen
    rcases h with h1 | h2 | ⟨hy, ha, t, dd, he, hq⟩
    · exact absurd h1 hlen.1
    · exact absurd h2 hlen.2
    · rw [hy, ha]
      simp only [Bool.and_self, Bool.not_true]
      rw [if_neg (by simp)]
      rw [he]
      simp only [hq]
      rfl

/-- Claim C9, amended: the length thresholds (title < 5, description
< 20 characters) are checked on the ORIGINAL content before the
transform, and the denylist (fused-phrase list and the markdown-link
pattern) on the truncated transform output; any post rejected by either
check is skipped — no image work, no publish call, no `sent_entries` or
`sent_hashes` mutation — leaving it eligible for retry next cycle.  (The
transform output's own lengths are never re-checked; the counterexample
publishes a transformed one-character title.) -/
theorem c9_amended (cfg : BotController.Config) (orc : BotController.Collab)
    (st : Doc) (raw : BotController.RawPost) (now : String)
    (h : (BotController.normalize_post raw now).title.length < 5 ∨
         (BotController.normalize_post raw now).description.length < 20 ∨
         (cfg.ENABLE_YAGPT = true ∧ orc.yagptAvailable = true ∧
          ∃ t dd, orc.enhance (BotController.normalize_post raw now).title
              (BotController.normalize_post raw now).description = some (t, dd) ∧
            BotController.contains_low_quality_phrases
              (BotController.truncate_text t cfg.MAX_TITLE_LENGTH)
              (BotController.truncate_text dd cfg.MAX_DESC_LENGTH) = true)) :
    (BotController.process_single_post cfg orc st raw now).retval = false ∧
    (BotController.process_single_post cfg orc st raw now).publishResult = none ∧
    (BotController.process_single_post cfg orc st raw now).imageCalls = 0 ∧
    (BotController.process_single_post cfg orc st raw now).state = st := by
  have hc := process_post_content_skips cfg orc
    { BotController.normalize_post raw now with
        post_id := BotController.generate_post_id (BotController.normalize_post raw now) } h
  rcases hpc : BotController.process_post_content cfg orc
      { BotController.normalize_post raw now with
          post_id := BotController.generate_post_id (BotController.normalize_post raw now) }
    with ⟨a, n⟩
  rw [hpc] at hc
  simp only at hc
  subst hc
  unfold BotController.process_single_post
  dsimp only
  rw [hpc]
  exact ⟨rfl, rfl, rfl, rfl⟩

/-- Configuration with the transform backend enabled. -/
def c9_cfg : BotController.Config := ⟨true, 100, 500, "none"⟩

/-- Collaborators whose transform backend rewrites the post to a
one-character title and a clean description; the publisher accepts. -/
def c9_orc : BotController.Collab :=
  ⟨true, fun _ _ => some ("X", "Чистое аккуратное описание без лишнего"),
   fun _ => .ok none, fun _ _ _ _ => true⟩

/-- An original post comfortably above both length thresholds. -/
def c9_post : BotController.Post :=
  BotController.mkPost "https://a/3" "Обычный заголовок статьи"
    "Довольно длинное исходное описание статьи для проверки"

set_option maxRecDepth 8000 in
/-- Claim C9 is wrong as stated for the length part: a post whose
TRANSFORMED title is below the minimum length threshold is not skipped.
The transform backend returns title "X" (length 1 < 5); the pipeline
publishes it and records the post. -/
theorem c9_short_transformed_title_published :
    (BotController.truncate_text "X" c9_cfg.MAX_TITLE_LENGTH).length < 5 ∧
    BotController.process_post_content c9_cfg c9_orc
      { c9_post with post_id := BotController.generate_post_id c9_post } =
      (some ("X", "Чистое аккуратное описание без лишнего"), 1) ∧
    (BotController.process_single_post c9_cfg c9_orc (StateManager.initial_state "t0")
      (.dict c9_post) "t1").retval = true ∧
    (BotController.process_single_post c9_cfg c9_orc (StateManager.initial_state "t0")
      (.dict c9_post) "t1").publishResult = some true ∧
    StateManager.is_entry_sent
      (BotController.process_single_post c9_cfg c9_orc (StateManager.initial_state "t0")
        (.dict c9_post) "t1").state
      (BotController.generate_post_id c9_post) = true :=
  ⟨by decide, rfl, rfl, rfl, rfl⟩

set_option maxRecDepth 8000 in
/-- Witness for the amended C9: the spec's own scenario — the transform
backend answers with the promotional boilerplate phrase — is skipped
without a publish call and without touching the state. -/
theorem c9_amended_witness :
    (BotController.process_single_post c9_cfg
      ⟨true, fun _ _ => some ("Заголовок обычный", "посмотрите, что нашлось в Поиске по теме икс"),
       fun _ => .ok none, fun _ _ _ _ => true⟩
      (StateManager.initial_state "t0") (.dict c9_post) "t1").retval = false ∧
    (BotController.process_single_post c9_cfg
      ⟨true, fun _ _ => some ("Заголовок обычный", "посмотрите, что нашлось в Поиске по теме икс"),
       fun _ => .ok none, fun _ _ _ _ => true⟩
      (StateManager.initial_state "t0") (.dict c9_post) "t1").publishResult = none ∧
    (BotController.process_single_post c9_cfg
      ⟨true, fun _ _ => some ("Заголовок обычный", "посмотрите, что нашлось в Поиске по теме икс"),
       fun _ => .ok none, fun _ _ _ _ => true⟩
      (StateManager.initial_state "t0") (.dict c9_post) "t1").state =
      StateManager.initial_state "t0" := by
  have h := c9_amended c9_cfg
    ⟨true, fun _ _ => some ("Заголовок обычный", "посмотрите, что нашлось в Поиске по теме икс"),
     fun _ => .ok none, fun _ _ _ _ => true⟩
    (StateManager.initial_state "t0") (.dict c9_post) "t1"
    (Or.inr (Or.inr ⟨rfl, rfl, "Заголовок обычный",
      "посмотрите, что нашлось в Поиске по теме икс", rfl, by decide⟩))
  exact ⟨h.1, h.2.1, h.2.2.2⟩

/-- The duplicate pre-check and the per-post processing derive the same
identity for a post. -/
theorem quick_normalize_id (raw : BotController.RawPost) (qp : BotController.Post)
    (now : String) (h : BotController.quick_normalize raw = some qp) :
    BotController.generate_post_id qp =
      BotController.generate_post_id (BotController.normalize_post raw now) := by
  cases raw with
  | dict p =>
      simp only [BotController.quick_normalize] at h
      split at h
      · cases h
        rfl
      · cases h
  | txt s =>
      simp only [BotController.quick_normalize] at h
      split at h
      · cases h
        rfl
      · cases h

/-- Claim C4: feeding the same normalized post through the pipeline twice
in sequence yields exactly one publish call and exactly one new
`sent_entries` record; the second pass is dropped by `is_entry_sent` on
the link+title identity at the FILTERING stage, before any transform or
image work (the batch totals of transform and image calls equal the
first run's alone). -/
theorem c4_idempotent_dedup (cfg : BotController.Config) (orc : BotController.Collab)
    (st : Doc) (raw : BotController.RawPost) (now : String) (qp : BotController.Post)
    (h1 : BotController.quick_normalize raw = some qp)
    (h2 : StateManager.is_entry_sent st (BotController.generate_post_id qp) = false)
    (h3 : (BotController.process_single_post cfg orc st raw now).retval = true) :
    (BotController.process_new_posts cfg orc st [raw, raw] now).publishCalls = 1 ∧
    (BotController.process_new_posts cfg orc st [raw, raw] now).publishSuccesses = 1 ∧
    (BotController.process_new_posts cfg orc st [raw, raw] now).duplicates = 1 ∧
    (BotController.process_new_posts cfg orc st [raw, raw] now).enhanceCalls =
      (BotController.process_single_post cfg orc st raw now).enhanceCalls ∧
    (BotController.process_new_posts cfg orc st [raw, raw] now).imageCalls =
      (BotController.process_single_post cfg orc st raw now).imageCalls ∧
    (BotController.process_new_posts cfg orc st [raw, raw] now).state =
      (BotController.process_single_post cfg orc st raw now).state ∧
    (sent_entries_list (BotController.process_new_posts cfg orc st [raw, raw] now).state).length =
      (sent_entries_list st).length + 1 := by
  have hqid := quick_normalize_id raw qp now h1
  have hspec := process_single_post_spec cfg orc st raw now
  have hrec : StateManager.is_entry_sent
      (BotController.process_single_post cfg orc st raw now).state
      (BotController.generate_post_id qp) = true := by
    rw [hqid]
    exact retval_entry_recorded cfg orc st raw now h3
  rcases hspec.2.2 with ⟨-, hfalse, -⟩ | ⟨hpr, hstate, hret⟩
  · rw [h3] at hfalse
    cases hfalse
  · have hok : (StateManager.add_sent_entry st
        (BotController.generate_post_id (BotController.normalize_post raw now))
        (BotController.normalize_post raw now).title
        (BotController.normalize_post raw now).description now).2 = true := by
      rw [← hret]; exact h3
    obtain ⟨hE, -, -⟩ := add_sent_entry_ok st _ _ _ now (generate_post_id_ne_empty _) hok
    have hlen : (sent_entries_list
        (BotController.process_single_post cfg orc st raw now).state).length =
        (sent_entries_list st).length + 1 := by
      rw [hstate]
      unfold sent_entries_list
      rw [hE]
      refine dSet_length_of_not_has _ _ _ ?_
      rw [← is_entry_sent_eq_dHas, ← hqid]
      exact h2
    have hbs : (BotController.process_new_posts cfg orc st [raw, raw] now).state =
        (BotController.process_single_post cfg orc st raw now).state := by
      unfold BotController.process_new_posts
      simp [h1, h2, hrec]
    refine ⟨?_, ?_, ?_, ?_, ?_, hbs, by rw [hbs]; exact hlen⟩ <;>
    · unfold BotController.process_new_posts
      simp [h1, h2, hrec, hpr, h3]

/-- Witness for C4: the first post of the C2 scenario, fed twice from
the fresh state, is published once and skipped as a duplicate once. -/
theorem c4_idempotent_dedup_witness :
    (BotController.process_new_posts c2_cfg c2_orc (StateManager.initial_state "t0")
      [.dict c2_first, .dict c2_first] "t1").publishCalls = 1 ∧
    (BotController.process_new_posts c2_cfg c2_orc (StateManager.initial_state "t0")
      [.dict c2_first, .dict c2_first] "t1").duplicates = 1 ∧
    (sent_entries_list (BotController.process_new_posts c2_cfg c2_orc
      (StateManager.initial_state "t0") [.dict c2_first, .dict c2_first] "t1").state).length =
      (sent_entries_list (StateManager.initial_state "t0")).length + 1 := by
  have h := c4_idempotent_dedup c2_cfg c2_orc (StateManager.initial_state "t0")
    (.dict c2_first) "t1"
    (BotController.mkPost "https://a/1" "Breaking News Today" "")
    rfl rfl rfl
  exact ⟨h.1, h.2.2.1, h.2.2.2.2.2.2⟩

/-- States of the durable store reachable by the pipeline's own
operations: the fresh state of `__init__`, then any sequence of
per-post processing runs (each records at most one post through
`add_sent_entry` with the derived MD5 identity). -/
inductive PipelineReachable (cfg : BotController.Config) (orc : BotController.Collab) :
    Doc → Prop where
  | start (now : String) : PipelineReachable cfg orc (StateManager.initial_state now)
  | publish (st : Doc) (raw : BotController.RawPost) (now : String) :
      PipelineReachable cfg orc st →
      PipelineReachable cfg orc
        (BotController.process_single_post cfg orc st raw now).state

/-- The stricter invariant the pipeline maintains: entry keys are
exactly 32 lowercase hex characters (MD5), hash keys exactly 64
(SHA-256), values are strings. -/
def strict_key_format (st : Doc) : Bool :=
  ((sent_entries_list st).all fun p =>
    decide (p.1.length = 32) && p.1.data.all isLowerHex && p.2.isStr) &&
  ((sent_hashes_list st).all fun p => matchesHex64 p.1 && p.2.isStr)

theorem dSet_all (l : List (String × JValue)) (k : String) (v : JValue)
    (P : String × JValue → Bool) (hl : l.all P = true) (hp : P (k, v) = true) :
    (dSet l k v).all P = true := by
  induction l with
  | nil => simpa [dSet]
  | cons p rest ih =>
      simp only [List.all_cons, Bool.and_eq_true] at hl
      by_cases hk : p.1 = k
      · obtain ⟨p1, p2⟩ := p
        simp only at hk
        simp [dSet, hk, List.all_cons, hp, hl.2]
      · obtain ⟨p1, p2⟩ := p
        simp only at hk
        simp [dSet, hk, List.all_cons, hl.1, ih hl.2]

theorem validate_state_parts (d : Doc) (h : StateManager.validate_state d = true) :
    (∃ E, dGet? d "sent_entries" = some (.obj E) ∧
      (E.all fun p => matchesHex32to64 p.1 && p.2.isStr) = true) ∧
    (∃ H, dGet? d "sent_hashes" = some (.obj H) ∧
      (H.all fun p => matchesHex64 p.1 && p.2.isStr) = true) ∧
    (∃ S, dGet? d "stats" = some (.obj S)) ∧
    dHas d "metadata" = true := by
  unfold StateManager.validate_state at h
  simp only [Bool.and_eq_true] at h
  obtain ⟨⟨⟨⟨⟨⟨-, -⟩, -⟩, hm⟩, he⟩, hh⟩, hs⟩ := h
  refine ⟨?_, ?_, ?_, hm⟩
  · rcases hge : dGet? d "sent_entries" with _ | v
    · simp [hge] at he
    · cases v
      case obj kvs =>
        simp only [hge] at he
        exact ⟨_, rfl, he⟩
      all_goals simp [hge] at he
  · rcases hgh : dGet? d "sent_hashes" with _ | v
    · simp [hgh] at hh
    · cases v
      case obj kvs =>
        simp only [hgh] at hh
        exact ⟨_, rfl, hh⟩
      all_goals simp [hgh] at hh
  · rcases hgs : dGet? d "stats" with _ | v
    · simp [hgs] at hs
    · cases v
      case obj kvs => exact ⟨_, rfl⟩
      all_goals simp [hgs] at hs

theorem validate_state_of (d : Doc)
    (he : ∃ E, dGet? d "sent_entries" = some (.obj E) ∧
      (E.all fun p => matchesHex32to64 p.1 && p.2.isStr) = true)
    (hh : ∃ H, dGet? d "sent_hashes" = some (.obj H) ∧
      (H.all fun p => matchesHex64 p.1 && p.2.isStr) = true)
    (hs : ∃ S, dGet? d "stats" = some (.obj S))
    (hm : dHas d "metadata" = true) :
    StateManager.validate_state d = true := by
  obtain ⟨E, hge, hE⟩ := he
  obtain ⟨H, hgh, hH⟩ := hh
  obtain ⟨S, hgs⟩ := hs
  unfold StateManager.validate_state
  rw [hge, hgh, hgs]
  simp [dHas, hge, hgh, hgs, hm, hE, hH]
  exact hm

/-- On a state whose two maps are dicts, `add_sent_entry` never raises. -/
theorem add_sent_entry_completes (st : Doc) (pid t d now : String)
    (hpid : pid ≠ "")
    (E H : List (String × JValue))
    (hge : dGet? st "sent_entries" = some (.obj E))
    (hgh : dGet? st "sent_hashes" = some (.obj H)) :
    (StateManager.add_sent_entry st pid t d now).2 = true := by
  unfold StateManager.add_sent_entry
  rw [if_neg hpid]
  simp only [hge]
  unfold StateManager.add_hash
  have h2 : dGet? (dSet st "sent_entries" (.obj (dSet E pid (.str now)))) "sent_hashes" =
      some (.obj H) := by
    rw [dGet?_dSet_ne _ _ _ _ (by decide), hgh]
  simp only [h2]

/-- Claim C10: every key the pipeline inserts into `sent_entries` is the
32-character lowercase-hex MD5 identity and every key inserted into
`sent_hashes` is a 64-character lowercase-hex SHA-256 digest, so any
state populated solely by the program's own operations (fresh state plus
any sequence of pipeline runs) always passes `_validate_state`. -/
theorem c10_pipeline_state_valid (cfg : BotController.Config)
    (orc : BotController.Collab) (st : Doc) (h : PipelineReachable cfg orc st) :
    StateManager.validate_state st = true ∧ strict_key_format st = true := by
  induction h with
  | start now => exact ⟨rfl, rfl⟩
  | publish st raw now hr ih =>
      rcases (process_single_post_spec cfg orc st raw now).2.2 with
        ⟨hst, -, -⟩ | ⟨-, hstate, hret⟩
      · rw [hst]
        exact ih
      · obtain ⟨⟨E, hge, hE⟩, ⟨H, hgh, hH⟩, ⟨S, hgs⟩, hm⟩ := validate_state_parts st ih.1
        have hEq : sent_entries_list st = E := by simp [sent_entries_list, hge]
        have hHq : sent_hashes_list st = H := by simp [sent_hashes_list, hgh]
        have hok : (StateManager.add_sent_entry st
            (BotController.generate_post_id (BotController.normalize_post raw now))
            (BotController.normalize_post raw now).title
            (BotController.normalize_post raw now).description now).2 = true :=
          add_sent_entry_completes st _ _ _ now (generate_post_id_ne_empty _) E H hge hgh
        obtain ⟨hE2, hH2, hO⟩ := add_sent_entry_ok st _ _ _ now
          (generate_post_id_ne_empty _) hok
        rw [hEq] at hE2
        rw [hHq] at hH2
        have hstrict : strict_key_format
            (BotController.process_single_post cfg orc st raw now).state = true := by
          rw [hstate]
          unfold strict_key_format
          rw [Bool.and_eq_true]
          constructor
          · have : sent_entries_list (StateManager.add_sent_entry st
                (BotController.generate_post_id (BotController.normalize_post raw now))
                (BotController.normalize_post raw now).title
                (BotController.normalize_post raw now).description now).1 =
              dSet E (BotController.generate_post_id (BotController.normalize_post raw now))
                (.str now) := by
              simp [sent_entries_list, hE2]
            rw [this]
            refine dSet_all _ _ _ _ ?_ ?_
            · rw [← hEq]
              exact ((Bool.and_eq_true _ _).mp ih.2).1
            · simp only [Bool.and_eq_true]
              refine ⟨⟨?_, ?_⟩, rfl⟩
              · exact decide_eq_true (md5_hexdigest_length _)
              · exact toHex_all_hex 32 _
          · have : sent_hashes_list (StateManager.add_sent_entry st
                (BotController.generate_post_id (BotController.normalize_post raw now))
                (BotController.normalize_post raw now).title
                (BotController.normalize_post raw now).description now).1 =
              dSet H (StateManager.generate_content_hash
                (BotController.normalize_post raw now).title
                (BotController.normalize_post raw now).description) (.str now) := by
              simp [sent_hashes_list, hH2]
            rw [this]
            refine dSet_all _ _ _ _ ?_ ?_
            · rw [← hHq]
              exact ((Bool.and_eq_true _ _).mp ih.2).2
            · simp only [Bool.and_eq_true]
              exact ⟨matchesHex64_sha256 _, rfl⟩
        refine ⟨?_, hstrict⟩
        rw [hstate]
        refine validate_state_of _ ?_ ?_ ?_ ?_
        · refine ⟨_, hE2, ?_⟩
          refine dSet_all _ _ _ _ hE ?_
          simp only [Bool.and_eq_true]
          exact ⟨matchesHex32to64_md5 _, rfl⟩
        · refine ⟨_, hH2, ?_⟩
          refine dSet_all _ _ _ _ hH ?_
          simp only [Bool.and_eq_true]
          exact ⟨matchesHex64_sha256 _, rfl⟩
        · exact ⟨S, by rw [hO "stats" (by decide) (by decide)]; exact hgs⟩
        · unfold dHas at hm ⊢
          rw [hO "metadata" (by decide) (by decide)]
          exact hm

/-- Witness for C10: the state after one concrete published post is
reachable and validates. -/
theorem c10_pipeline_state_valid_witness :
    StateManager.validate_state
      (BotController.process_single_post c2_cfg c2_orc (StateManager.initial_state "t0")
        (.dict c2_first) "t1").state = true ∧
    strict_key_format
      (BotController.process_single_post c2_cfg c2_orc (StateManager.initial_state "t0")
        (.dict c2_first) "t1").state = true :=
  c10_pipeline_state_valid c2_cfg c2_orc _
    (.publish (StateManager.initial_state "t0") (.dict c2_first) "t1" (.start "t0"))

theorem dSet_same (d : Doc) (k : String) (v : JValue) (h : dGet? d k = some v) :
    dSet d k v = d := by
  induction d with
  | nil => cases h
  | cons p rest ih =>
      obtain ⟨k1, v1⟩ := p
      by_cases hk : k1 = k
      · subst hk
        simp [dGet?] at h
        simp [dSet, h]
      · simp [dGet?, hk] at h
        simp [dSet, hk, ih h]

theorem dSet_append_of_not_has (d : Doc) (k : String) (v : JValue)
    (h : dHas d k = false) : dSet d k v = d ++ [(k, v)] := by
  induction d with
  | nil => simp [dSet]
  | cons p rest ih =>
      obtain ⟨k1, v1⟩ := p
      by_cases hk : k1 = k
      · simp [dHas, dGet?, hk] at h
      · simp [dHas, dGet?, hk] at h
        simp [dSet, hk, ih (by simp [dHas, h])]

theorem dGet?_append_of_not_has (d1 d2 : Doc) (k : String) (h : dHas d1 k = false) :
    dGet? (d1 ++ d2) k = dGet? d2 k := by
  induction d1 with
  | nil => rfl
  | cons p rest ih =>
      obtain ⟨k1, v1⟩ := p
      by_cases hk : k1 = k
      · simp [dHas, dGet?, hk] at h
      · simp [dHas, dGet?, hk] at h
        simp [dGet?, hk, ih (by simp [dHas, h])]

theorem dGet?_eq_some_of_mem_nodup (l : List (String × JValue)) (k : String) (v : JValue)
    (hnd : (l.map Prod.fst).Nodup) (hm : (k, v) ∈ l) : dGet? l k = some v := by
  induction l with
  | nil => cases hm
  | cons p rest ih =>
      obtain ⟨k1, v1⟩ := p
      simp only [List.map_cons, List.nodup_cons] at hnd
      rcases List.mem_cons.mp hm with heq | hmem
      · cases heq
        simp [dGet?]
      · have hk : k1 ≠ k := by
          intro he
          subst he
          exact hnd.1 (List.mem_map.mpr ⟨(k1, v), hmem, rfl⟩)
        simp [dGet?, hk, ih hnd.2 hmem]

/-- The entry-building fold of `_convert_legacy_state` on distinct fresh
keys appends in order. -/
theorem build_entries_eq_map (entries : List (String × String))
    (acc : List (String × JValue))
    (hdisj : ∀ p ∈ entries, dHas acc p.1 = false)
    (hnd : (entries.map Prod.fst).Nodup) :
    entries.foldl (fun a p => dSet a p.1 (.str p.2)) acc =
      acc ++ entries.map (fun p => (p.1, JValue.str p.2)) := by
  induction entries generalizing acc with
  | nil => simp
  | cons p rest ih =>
      obtain ⟨i, dte⟩ := p
      simp only [List.map_cons, List.nodup_cons] at hnd
      rw [List.foldl_cons, dSet_append_of_not_has _ _ _ (hdisj (i, dte) (by simp))]
      rw [ih _ ?_ hnd.2]
      · simp
      · intro q hq
        have hq1 : q.1 ≠ i := by
          intro he
          exact hnd.1 (he ▸ List.mem_map.mpr ⟨q, hq, rfl⟩)
        rw [dHas, dGet?_append_of_not_has _ _ _ (hdisj q (List.mem_cons_of_mem _ hq))]
        simp [dGet?, Ne.symm hq1]

/-- The entries map `_convert_legacy_state` builds from a clean legacy
entry list. -/
def buildE (entries : List (String × String)) : List (String × JValue) :=
  entries.foldl (fun a p => dSet a p.1 (.str p.2)) []

/-- The metadata `_convert_legacy_state` stamps on the converted doc. -/
def c8_meta (now : String) : List (String × JValue) :=
  [("version", .num (6 / 5)), ("created_at", .str now),
   ("last_modified", .null), ("converted_from_legacy", .jbool true)]

theorem foldlM_legacy_entries (now : String) (entries : List (String × String)) :
    ∀ acc, ((entries.map fun p =>
        JValue.obj [("post_id", .str p.1), ("pub_date", .str p.2)]).foldlM
      (StateManager.legacy_entry_step now) acc) =
      .ok (entries.foldl (fun a p => dSet a p.1 (.str p.2)) acc) := by
  induction entries with
  | nil => intro acc; rfl
  | cons p rest ih =>
      intro acc
      obtain ⟨i, dte⟩ := p
      simp only [List.map_cons, List.foldlM_cons, StateManager.legacy_entry_step,
        dHas, dGet?, List.foldl_cons]
      simp [ih]

theorem convert_legacy_on (entries : List (String × String)) (us : JValue) (now : String) :
    StateManager.convert_legacy_state
      [("sent_entries", .arr (entries.map fun p =>
          JValue.obj [("post_id", .str p.1), ("pub_date", .str p.2)])),
       ("user_settings", us)] now =
    .ok [("sent_entries", .obj (buildE entries)),
         ("sent_hashes", .obj []),
         ("stats", .obj []),
         ("metadata", .obj (c8_meta now)),
         ("user_settings", us)] := by
  unfold StateManager.convert_legacy_state
  simp [dGet?, dHas, foldlM_legacy_entries, bind, Except.bind, pure, Except.pure,
    dSet, buildE, c8_meta]

/-- A clean legacy-format (v1.0) state document: `sent_entries` is a
plain list of `{post_id, pub_date}` records, plus one auxiliary field. -/
def c8_legacy_doc (entries : List (String × String)) (us : JValue) : JValue :=
  .obj [("sent_entries", .arr (entries.map fun p =>
      JValue.obj [("post_id", .str p.1), ("pub_date", .str p.2)])),
    ("user_settings", us)]

/-- The converted document `load_state` adopts for a clean legacy doc. -/
def c8_loaded (entries : List (String × String)) (us : JValue) (now : String) : Doc :=
  [("sent_entries", .obj (List.insertionSort StateManager.itemLe
      (entries.map fun p => (p.1, JValue.str p.2)))),
   ("sent_hashes", .obj []),
   ("stats", .obj []),
   ("metadata", .obj [("version", .num (6 / 5)), ("created_at", .str now),
     ("last_modified", .str now), ("converted_from_legacy", .jbool true)]),
   ("user_settings", us)]

/-- The document `save_state` then writes for the converted state. -/
def c8_saved (entries : List (String × String)) (us : JValue) (now : String) : Doc :=
  [("sent_entries", .obj (List.insertionSort StateManager.itemLe
      (entries.map fun p => (p.1, JValue.str p.2)))),
   ("sent_hashes", .obj []),
   ("stats", .obj []),
   ("metadata", .obj [("version", .num (6 / 5)), ("created_at", .str now),
     ("last_modified", .str now), ("converted_from_legacy", .jbool true),
     ("entries_count", .num entries.length),
     ("hashes_count", .num 0)]),
   ("user_settings", us)]

theorem sorted_all (l : List (String × JValue)) (P : String × JValue → Bool)
    (h : l.all P = true) : (List.insertionSort StateManager.itemLe l).all P = true := by
  rw [List.all_eq_true] at h ⊢
  intro p hp
  exact h p ((List.mem_insertionSort _).mp hp)

theorem c8_hstr (entries : List (String × String)) :
    ((entries.map fun p => (p.1, JValue.str p.2)).all fun p => p.2.isStr) = true := by
  rw [List.all_eq_true]
  rintro ⟨k, v⟩ hm
  obtain ⟨q, hq, heq⟩ := List.mem_map.mp hm
  cases heq
  rfl

theorem c8_hex_all (entries : List (String × String))
    (hhex : ∀ p ∈ entries, matchesHex32to64 p.1 = true) :
    ((entries.map fun p => (p.1, JValue.str p.2)).all fun p =>
      matchesHex32to64 p.1 && p.2.isStr) = true := by
  rw [List.all_eq_true]
  rintro ⟨k, v⟩ hm
  obtain ⟨q, hq, heq⟩ := List.mem_map.mp hm
  cases heq
  simp only [Bool.and_eq_true]
  exact ⟨hhex q hq, rfl⟩

theorem c8_sorted_eq (entries : List (String × String)) :
    List.insertionSort StateManager.itemLe (List.insertionSort StateManager.itemLe
      (entries.map fun p => (p.1, JValue.str p.2))) =
    List.insertionSort StateManager.itemLe (entries.map fun p => (p.1, JValue.str p.2)) :=
  (List.sorted_insertionSort StateManager.itemLe _).insertionSort_eq

theorem load_body_c8_legacy (entries : List (String × String)) (us : JValue) (now : String)
    (hnd : (entries.map Prod.fst).Nodup)
    (hhex : ∀ p ∈ entries, matchesHex32to64 p.1 = true) :
    StateManager.load_body (c8_legacy_doc entries us) now =
      .ok (c8_loaded entries us now, true) := by
  have hconv := convert_legacy_on entries us now
  have hbuild : buildE entries = entries.map fun p => (p.1, JValue.str p.2) := by
    simpa [buildE] using build_entries_eq_map entries [] (by simp [dHas, dGet?]) hnd
  have hval : StateManager.validate_state (c8_loaded entries us now) = true := by
    refine validate_state_of _ ⟨_, rfl, sorted_all _ _ (c8_hex_all entries hhex)⟩
      ⟨[], rfl, rfl⟩ ⟨[], rfl⟩ rfl
  simp only [c8_loaded] at hval
  simp only [c8_legacy_doc, c8_loaded, StateManager.load_body, StateManager.sortByValue,
    bind, Except.bind, pure, Except.pure, dGet?, dHas, dSet, Option.isSome, Option.getD,
    List.insertionSort, hconv, hbuild, c8_meta]
  simp [dSet, c8_hstr entries, hval]

theorem refresh_out_c8 (entries : List (String × String)) (us : JValue) (now : String) :
    refresh_out (c8_loaded entries us now) now = c8_saved entries us now := by
  simp only [refresh_out, StateManager.refresh_metadata, c8_loaded, c8_saved,
    bind, Except.bind, pure, Except.pure, dGet?, dSet]
  simp [dSet]

theorem load_body_c8_saved (entries : List (String × String)) (us : JValue) (now : String)
    (hhex : ∀ p ∈ entries, matchesHex32to64 p.1 = true) :
    StateManager.load_body (.obj (c8_saved entries us now)) now =
      .ok (c8_saved entries us now, false) := by
  have hvalS : StateManager.validate_state (c8_saved entries us now) = true := by
    refine validate_state_of _ ⟨_, rfl, sorted_all _ _ (c8_hex_all entries hhex)⟩
      ⟨[], rfl, rfl⟩ ⟨[], rfl⟩ rfl
  simp only [c8_saved] at hvalS
  simp only [StateManager.load_body, StateManager.sortByValue, c8_saved, bind,
    Except.bind, pure, Except.pure, dGet?, dHas, dSet, Option.isSome, Option.getD,
    List.insertionSort, sorted_all _ _ (c8_hstr entries), c8_sorted_eq]
  simp [dSet, sorted_all _ _ (c8_hstr entries), c8_sorted_eq, hvalS]

/-- Claim C8, amended: for a legacy-format document whose sent_entries
is a plain list of N `{post_id, pub_date}` records with DISTINCT
post_ids that already match the identity key format (32-64 lowercase
hex) and string pub_dates, `load()` converts without recovery and
exposes exactly N entries via `is_entry_sent` with their timestamps
preserved, auxiliary fields (here `user_settings`) carried forward
verbatim under their original keys, and saving then reloading the
converted document is a fixed point: no further migration or recovery,
and the durable maps are unchanged.  (Without the hex restriction the
converted document fails `_validate_state` and the whole legacy history
is discarded — see the counterexample.) -/
theorem c8_amended (entries : List (String × String)) (us : JValue) (cur : Doc)
    (now : String)
    (hnd : (entries.map Prod.fst).Nodup)
    (hhex : ∀ p ∈ entries, matchesHex32to64 p.1 = true) :
    (StateManager.load_state (some (some (c8_legacy_doc entries us))) cur now).recovered
      = false ∧
    (StateManager.load_state (some (some (c8_legacy_doc entries us))) cur now).migrated
      = true ∧
    (sent_entries_list (StateManager.load_state (some (some (c8_legacy_doc entries us)))
      cur now).state).length = entries.length ∧
    (∀ p ∈ entries,
      StateManager.is_entry_sent (StateManager.load_state
        (some (some (c8_legacy_doc entries us))) cur now).state p.1 = true ∧
      dGet? (sent_entries_list (StateManager.load_state
        (some (some (c8_legacy_doc entries us))) cur now).state) p.1 = some (.str p.2)) ∧
    dGet? (StateManager.load_state (some (some (c8_legacy_doc entries us))) cur now).state
      "user_settings" = some us ∧
    (StateManager.load_state
      (some (some (.obj (StateManager.save_state
        (StateManager.load_state (some (some (c8_legacy_doc entries us))) cur now).state
        true now .noFault).state)))
      (StateManager.load_state (some (some (c8_legacy_doc entries us))) cur now).state
      now).migrated = false ∧
    (StateManager.load_state
      (some (some (.obj (StateManager.save_state
        (StateManager.load_state (some (some (c8_legacy_doc entries us))) cur now).state
        true now .noFault).state)))
      (StateManager.load_state (some (some (c8_legacy_doc entries us))) cur now).state
      now).recovered = false ∧
    sent_entries_list (StateManager.load_state
      (some (some (.obj (StateManager.save_state
        (StateManager.load_state (some (some (c8_legacy_doc entries us))) cur now).state
        true now .noFault).state)))
      (StateManager.load_state (some (some (c8_legacy_doc entries us))) cur now).state
      now).state =
      sent_entries_list (StateManager.load_state
        (some (some (c8_legacy_doc entries us))) cur now).state ∧
    sent_hashes_list (StateManager.load_state
      (some (some (.obj (StateManager.save_state
        (StateManager.load_state (some (some (c8_legacy_doc entries us))) cur now).state
        true now .noFault).state)))
      (StateManager.load_state (some (some (c8_legacy_doc entries us))) cur now).state
      now).state =
      sent_hashes_list (StateManager.load_state
        (some (some (c8_legacy_doc entries us))) cur now).state := by
  have hload : StateManager.load_state (some (some (c8_legacy_doc entries us))) cur now =
      ⟨c8_loaded entries us now, true, false, false⟩ := by
    simp only [StateManager.load_state, load_body_c8_legacy entries us now hnd hhex]
  have hshape : canonical_shape (c8_loaded entries us now) = true := rfl
  have hsave : StateManager.save_state (c8_loaded entries us now) true now .noFault =
      ⟨c8_saved entries us now, some (c8_saved entries us now), false, false⟩ := by
    have hok : (StateManager.refresh_metadata (c8_loaded entries us now) now).isOk = true := by
      simp [refresh_metadata_ok_of_shape _ _ hshape, Except.isOk, Except.toBool]
    rw [save_state_eq, if_neg (by decide), if_pos ⟨hok, rfl⟩, refresh_out_c8]
  have hreload : StateManager.load_state (some (some (.obj (c8_saved entries us now))))
      (c8_loaded entries us now) now =
      ⟨c8_saved entries us now, false, false, false⟩ := by
    simp only [StateManager.load_state, load_body_c8_saved entries us now hhex]
  have hndE : ((entries.map fun p => (p.1, JValue.str p.2)).map Prod.fst).Nodup := by
    simpa [List.map_map, Function.comp] using hnd
  have hSperm := List.perm_insertionSort StateManager.itemLe
    (entries.map fun p => (p.1, JValue.str p.2))
  have hndS : ((List.insertionSort StateManager.itemLe
      (entries.map fun p => (p.1, JValue.str p.2))).map Prod.fst).Nodup :=
    ((hSperm.map Prod.fst).nodup_iff).mpr hndE
  have hmem : ∀ p ∈ entries, (p.1, JValue.str p.2) ∈ List.insertionSort StateManager.itemLe
      (entries.map fun p => (p.1, JValue.str p.2)) := fun p hp =>
    (List.mem_insertionSort _).mpr (List.mem_map.mpr ⟨p, hp, rfl⟩)
  rw [hload, hsave, hreload]
  refine ⟨rfl, rfl, ?_, ?_, rfl, rfl, rfl, rfl, rfl⟩
  · simp [c8_loaded, sent_entries_list, dGet?]
  · intro p hp
    have hget : dGet? (List.insertionSort StateManager.itemLe
        (entries.map fun q => (q.1, JValue.str q.2))) p.1 = some (.str p.2) :=
      dGet?_eq_some_of_mem_nodup _ _ _ hndS (hmem p hp)
    constructor
    · rw [is_entry_sent_eq_dHas]
      show dHas (List.insertionSort StateManager.itemLe
        (entries.map fun q => (q.1, JValue.str q.2))) p.1 = true
      rw [dHas, hget]
      rfl
    · exact hget

/-- Claim C8 is wrong as stated: a legacy document whose single record
has post_id "x" (a perfectly ordinary legacy id, but not 32-64 lowercase
hex) is not exposed after `load()` — the converted document fails
`_validate_state`, load recovers to the fresh empty state, and the
legacy history is lost. -/
theorem c8_legacy_entries_lost :
    (StateManager.load_state
      (some (some (c8_legacy_doc [("x", "2024-01-01T00:00:00")] .null)))
      (StateManager.initial_state "t0") "t1").recovered = true ∧
    StateManager.is_entry_sent
      (StateManager.load_state
        (some (some (c8_legacy_doc [("x", "2024-01-01T00:00:00")] .null)))
        (StateManager.initial_state "t0") "t1").state "x" = false ∧
    (sent_entries_list (StateManager.load_state
      (some (some (c8_legacy_doc [("x", "2024-01-01T00:00:00")] .null)))
      (StateManager.initial_state "t0") "t1").state).length = 0 :=
  ⟨rfl, rfl, rfl⟩

/-- Witness for the amended C8 on a one-record legacy document with a
well-formed hex post_id. -/
theorem c8_amended_witness :
    (StateManager.load_state (some (some (c8_legacy_doc
      [("aaaaaaaaaaaaaaaaaaaaaaaaaaaaaaaa", "2024-01-01T00:00:00")] (.str "keep"))))
      (StateManager.initial_state "t0") "t1").recovered = false ∧
    (StateManager.load_state (some (some (c8_legacy_doc
      [("aaaaaaaaaaaaaaaaaaaaaaaaaaaaaaaa", "2024-01-01T00:00:00")] (.str "keep"))))
      (StateManager.initial_state "t0") "t1").migrated = true ∧
    (sent_entries_list (StateManager.load_state (some (some (c8_legacy_doc
      [("aaaaaaaaaaaaaaaaaaaaaaaaaaaaaaaa", "2024-01-01T00:00:00")] (.str "keep"))))
      (StateManager.initial_state "t0") "t1").state).length = 1 ∧
    dGet? (StateManager.load_state (some (some (c8_legacy_doc
      [("aaaaaaaaaaaaaaaaaaaaaaaaaaaaaaaa", "2024-01-01T00:00:00")] (.str "keep"))))
      (StateManager.initial_state "t0") "t1").state "user_settings" = some (.str "keep") ∧
    (StateManager.load_state
      (some (some (.obj (StateManager.save_state
        (StateManager.load_state (some (some (c8_legacy_doc
          [("aaaaaaaaaaaaaaaaaaaaaaaaaaaaaaaa", "2024-01-01T00:00:00")] (.str "keep"))))
          (StateManager.initial_state "t0") "t1").state true "t1" .noFault).state)))
      (StateManager.load_state (some (some (c8_legacy_doc
        [("aaaaaaaaaaaaaaaaaaaaaaaaaaaaaaaa", "2024-01-01T00:00:00")] (.str "keep"))))
        (StateManager.initial_state "t0") "t1").state "t1").migrated = false ∧
    sent_entries_list (StateManager.load_state
      (some (some (.obj (StateManager.save_state
        (StateManager.load_state (some (some (c8_legacy_doc
          [("aaaaaaaaaaaaaaaaaaaaaaaaaaaaaaaa", "2024-01-01T00:00:00")] (.str "keep"))))
          (StateManager.initial_state "t0") "t1").state true "t1" .noFault).state)))
      (StateManager.load_state (some (some (c8_legacy_doc
        [("aaaaaaaaaaaaaaaaaaaaaaaaaaaaaaaa", "2024-01-01T00:00:00")] (.str "keep"))))
        (StateManager.initial_state "t0") "t1").state "t1").state =
      sent_entries_list (StateManager.load_state (some (some (c8_legacy_doc
        [("aaaaaaaaaaaaaaaaaaaaaaaaaaaaaaaa", "2024-01-01T00:00:00")] (.str "keep"))))
        (StateManager.initial_state "t0") "t1").state := by
  have h := c8_amended
    [("aaaaaaaaaaaaaaaaaaaaaaaaaaaaaaaa", "2024-01-01T00:00:00")] (.str "keep")
    (StateManager.initial_state "t0") "t1" (by simp) (by decide)
  exact ⟨h.1, h.2.1, h.2.2.1, h.2.2.2.2.1, h.2.2.2.2.2.1, h.2.2.2.2.2.2.2.1⟩
